import Mathlib

/-!
Verification of the Meridian Solitaire snapshot-generator core
(`src/tools/snapshot_generator/core/`): game state, move validation and
generation, the BFS solver, and the difficulty analyzer.

Modelling conventions (shallow embedding of the Python sources):
* Card ranks and suits are the 13 x 4 finite enumerations the program deals
  with; `numeric_rank`, `color` and the string forms follow
  `game_state.py` (`Card`).
* Python lists become `List`, dict-of-seven-columns becomes `Fin 7 → List Card`,
  the `'up'/'down'` and `'h','d','c','s'` dict keys become enumerations.
* A pocket slot holds a card, is empty (`None`), or is disabled (`"N/A"`).
* Python `int` counters produced and maintained by the program are
  non-negative, so they are modelled as `Nat`; `max(0, n-1)` becomes
  truncated subtraction.
* Python floats in `difficulty.py` are modelled as exact rationals `ℚ`.
* `get_fingerprint` applies Python's builtin string `hash` to the tableau
  string.  `hash` is modelled as an injective function (the identity on the
  tableau string), which is the assumption most favourable to the code: any
  fingerprint collision exhibited in this development is a genuine collision
  of the Python fingerprints as well (equal tableau strings hash equally).
* Wall-clock time is not modellable; the `max_time_ms` ceiling branch of
  `Solver.solve` is modelled as never firing and `solve_time_ms` is 0.
* The unbounded `while queue:` loop of `Solver.solve` is modelled with an
  explicit fuel parameter counting loop iterations; `none` means the fuel was
  insufficient.  All theorems about results hold for every fuel value that
  produces a result.
-/

/-- Card suit: `'h','d','c','s'` in `game_state.py`. -/
inductive Suit where
  | h | d | c | s
deriving DecidableEq, Repr

/-- Card rank: `A, 2..10, J, Q, K` in `game_state.py`. -/
inductive Rank where
  | RA | R2 | R3 | R4 | R5 | R6 | R7 | R8 | R9 | R10 | RJ | RQ | RK
deriving DecidableEq, Repr

/-- A playing card, `Card` in `game_state.py` (value type, equality by
rank and suit). -/
structure Card where
  rank : Rank
  suit : Suit
deriving DecidableEq, Repr

namespace Card

/-- String form of a rank, as stored in the Python `Card.rank` field. -/
def rank_str : Rank → String
  | .RA => "A" | .R2 => "2" | .R3 => "3" | .R4 => "4" | .R5 => "5"
  | .R6 => "6" | .R7 => "7" | .R8 => "8" | .R9 => "9" | .R10 => "10"
  | .RJ => "J" | .RQ => "Q" | .RK => "K"

/-- String form of a suit, as stored in the Python `Card.suit` field. -/
def suit_str : Suit → String
  | .h => "h" | .d => "d" | .c => "c" | .s => "s"

/-- Python `str(card)`: rank string followed by suit string. -/
def str (c : Card) : String := rank_str c.rank ++ suit_str c.suit

/-- `Card.color` in `game_state.py`: red for hearts and diamonds, black
otherwise. -/
def color (c : Card) : String :=
  match c.suit with
  | .h => "red" | .d => "red" | .c => "black" | .s => "black"

/-- `Card.numeric_rank` in `game_state.py`: A=1, 2..10 as given, J=11, Q=12,
K=13. -/
def numeric_rank (c : Card) : Nat :=
  match c.rank with
  | .RA => 1 | .R2 => 2 | .R3 => 3 | .R4 => 4 | .R5 => 5 | .R6 => 6
  | .R7 => 7 | .R8 => 8 | .R9 => 9 | .R10 => 10 | .RJ => 11 | .RQ => 12
  | .RK => 13

end Card

/-- The two foundation families, the `'up'`/`'down'` keys of
`GameState.foundations`. -/
inductive FoundationFam where
  | up | down
deriving DecidableEq, Repr

/-- A pocket slot: a held card, empty (Python `None`), or not available in
this mode (Python `"N/A"`). -/
inductive Pocket where
  | held (c : Card)
  | empty
  | na
deriving DecidableEq, Repr

/-- Per-column bookkeeping, the `column_state` dict of `GameState`. -/
structure ColumnState where
  types : Fin 7 → Option String
  faceUpCounts : Fin 7 → Nat
  faceDownCounts : Fin 7 → Nat

instance : DecidableEq ColumnState := fun a b =>
  decidable_of_iff (a.types = b.types ∧ a.faceUpCounts = b.faceUpCounts ∧
    a.faceDownCounts = b.faceDownCounts) (by cases a; cases b; simp)

/-- `GameState` of `game_state.py`: tableau columns keyed `str(0)..str(6)`,
stock, waste, two pockets, the two foundation families keyed by suit, column
bookkeeping, and (here opaque) metadata. -/
structure GameState where
  metadata : String
  tableau : Fin 7 → List Card
  stock : List Card
  waste : List Card
  pocket1 : Pocket
  pocket2 : Pocket
  foundations : FoundationFam → Suit → List Card
  column_state : ColumnState

instance : Fintype FoundationFam :=
  ⟨⟨{.up, .down}, by decide⟩, fun x => by cases x <;> decide⟩

instance : Fintype Suit :=
  ⟨⟨{.h, .d, .c, .s}, by decide⟩, fun x => by cases x <;> decide⟩

instance : DecidableEq GameState := fun a b =>
  decidable_of_iff (a.metadata = b.metadata ∧ a.tableau = b.tableau ∧
    a.stock = b.stock ∧ a.waste = b.waste ∧ a.pocket1 = b.pocket1 ∧
    a.pocket2 = b.pocket2 ∧ a.foundations = b.foundations ∧
    a.column_state = b.column_state) (by cases a; cases b; simp)

/-- The suit iteration order `'hdcs'` used throughout the Python sources. -/
def allSuits : List Suit := [.h, .d, .c, .s]

/-- The family iteration order `['up', 'down']` used by the move generator. -/
def allFams : List FoundationFam := [.up, .down]

namespace MoveValidator

/-- `MoveValidator.can_place_on_foundation` in `moves.py`: suit must match a
non-empty pile's top; an empty up pile accepts only rank 7 and an empty down
pile only rank 6; otherwise the numeric rank must be the top's plus one (up)
or minus one (down). -/
def can_place_on_foundation (card : Card) (foundation_type : FoundationFam)
    (foundation_pile : List Card) : Bool :=
  match foundation_pile.getLast? with
  | some top =>
      if top.suit ≠ card.suit then false
      else
        match foundation_type with
        | .up => card.numeric_rank == top.numeric_rank + 1
        | .down => card.numeric_rank + 1 == top.numeric_rank
  | none =>
      match foundation_type with
      | .up => card.rank == .R7
      | .down => card.rank == .R6

/-- `MoveValidator.can_place_on_tableau` in `moves.py`: an empty column
accepts only rank A or K; otherwise the card must have the opposite color of
the target top card and numeric rank exactly one less.  The `column_type`
argument is accepted and ignored, as in the source. -/
def can_place_on_tableau (card : Card) (target_card : Option Card)
    (target_column_empty : Bool) (column_type : Option String) : Bool :=
  if target_column_empty then
    card.rank == Rank.RA || card.rank == Rank.RK
  else
    match target_card with
    | none => false
    | some tgt =>
        if card.color == tgt.color then false
        else if !(card.numeric_rank + 1 == tgt.numeric_rank) then false
        else
          -- the `column_type` branches in the source are all `pass`
          let _ := column_type
          true

/-- Check of the tail of a sequence in
`MoveValidator.can_place_sequence_on_tableau`: the Python loop
`for i in range(1, len(sequence))` tests each card against its immediate
predecessor. -/
def sequence_chain_ok : List Card → Bool
  | [] => true
  | [_] => true
  | a :: b :: rest =>
      can_place_on_tableau b (some a) false none &&
      sequence_chain_ok (b :: rest)

/-- `MoveValidator.can_place_sequence_on_tableau` in `moves.py`: an empty
sequence is rejected; the first card is checked against the target and every
later card against its immediate predecessor. -/
def can_place_sequence_on_tableau (sequence : List Card)
    (target_card : Option Card) (target_column_empty : Bool) : Bool :=
  match sequence with
  | [] => false
  | first :: _ =>
      can_place_on_tableau first target_card target_column_empty none &&
      sequence_chain_ok sequence

/-- `MoveValidator.get_column_type` in `moves.py`. -/
def get_column_type (column : List Card) : Option String :=
  match column.head? with
  | none => none
  | some bottom =>
      if bottom.rank = .RK then some "king"
      else if bottom.rank = .RA then some "ace"
      else some "traditional"

end MoveValidator

/-- `MoveType` in `moves.py`. -/
inductive MoveType where
  | to_foundation | to_tableau | to_pocket | from_pocket
  | draw_stock | recycle_waste
deriving DecidableEq, Repr

/-- The `source` locator dict of a `Move`: its `'type'` key plus the
column / pocket number payloads the solver reads. -/
inductive MoveSource where
  | tableau (column : Fin 7)
  | waste
  | pocket (pocket_num : Nat)
  | stock
deriving DecidableEq, Repr

/-- The `target` locator dict of a `Move`. -/
inductive MoveTarget where
  | foundation (foundation_type : FoundationFam) (suit : Suit)
  | tableau (column : Fin 7)
  | pocket (pocket_num : Nat)
  | waste
  | stock
deriving DecidableEq, Repr

/-- `Move` in `moves.py`. -/
structure Move where
  move_type : MoveType
  source : MoveSource
  target : MoveTarget
  cards : List Card
deriving DecidableEq, Repr

/-- Total number of foundation cards, the sum computed identically in
`Solver._is_won`, `GameState.get_fingerprint` and `to_snapshot_dict`. -/
def foundation_count (s : GameState) : Nat :=
  (allFams.map fun ft =>
    (allSuits.map fun su => (s.foundations ft su).length).sum).sum

/-- The tableau part of `GameState.get_fingerprint`: columns joined with
`'|'`, cards within a column joined with `','`. -/
def tableau_str (s : GameState) : String :=
  String.intercalate "|"
    ((List.finRange 7).map fun i =>
      String.intercalate "," ((s.tableau i).map Card.str))

/-- `GameState.get_fingerprint`.  The Python code hashes `tableau_str` and
formats `hash|stock_top|waste_top|foundation_count` as one string; the hash
is modelled as injective (kept verbatim), so two modelled fingerprints are
equal exactly when the Python fingerprints agree on every encoded component.
-/
def get_fingerprint (s : GameState) : String × String × String × Nat :=
  ( tableau_str s
  , match s.stock.head? with | some c => c.str | none => "empty"
  , match s.waste.getLast? with | some c => c.str | none => "empty"
  , foundation_count s )

namespace MoveGenerator

open MoveValidator

/-- The pocket iteration order
`[(1, state.pocket1), (2, state.pocket2)]` used by the generator. -/
def pocketPairs (s : GameState) : List (Nat × Pocket) :=
  [(1, s.pocket1), (2, s.pocket2)]

/-- Python suffix slice `xs[-n:]` for `n > 0`: the last `min n (length xs)`
elements. -/
def pySuffix (xs : List Card) (n : Nat) : List Card :=
  xs.drop (xs.length - n)

/-- One pass of the doubly nested foundation loop
(`for foundation_type in ['up','down']: for suit in 'hdcs': ...`) that
appears three times inside `MoveGenerator._generate_foundation_moves`. -/
def foundation_targets (s : GameState) (card : Card) (src : MoveSource) :
    List Move :=
  allFams.flatMap fun ft =>
    (allSuits.filter fun su =>
      can_place_on_foundation card ft (s.foundations ft su)).map fun su =>
        ⟨.to_foundation, src, .foundation ft su, [card]⟩

/-- `MoveGenerator._generate_foundation_moves`: waste top, occupied pockets,
then each column's topmost face-up card, each tested against all eight
foundation piles. -/
def _generate_foundation_moves (s : GameState) : List Move :=
  (match s.waste.getLast? with
   | some wc => foundation_targets s wc .waste
   | none => []) ++
  ((pocketPairs s).flatMap fun p =>
    match p.2 with
    | .held c => foundation_targets s c (.pocket p.1)
    | _ => []) ++
  ((List.finRange 7).flatMap fun i =>
    let col := s.tableau i
    if col.isEmpty then []
    else
      let fu := s.column_state.faceUpCounts i
      let face_up_cards := if fu > 0 then pySuffix col fu else []
      match face_up_cards.getLast? with
      | some top => foundation_targets s top (.tableau i)
      | none => [])

/-- `MoveGenerator._generate_tableau_moves`: every suffix of every column's
face-up run against every other column, then the waste top card against
every column. -/
def _generate_tableau_moves (s : GameState) : List Move :=
  ((List.finRange 7).flatMap fun src =>
    let src_col := s.tableau src
    if src_col.isEmpty then []
    else
      let fu := s.column_state.faceUpCounts src
      let face_up_cards := if fu > 0 then pySuffix src_col fu else []
      if face_up_cards.isEmpty then []
      else
        (List.range face_up_cards.length).flatMap fun j =>
          let sequence := pySuffix face_up_cards (j + 1)
          ((List.finRange 7).filter fun tgt => tgt ≠ src).flatMap fun tgt =>
            let tgt_col := s.tableau tgt
            if can_place_sequence_on_tableau sequence tgt_col.getLast?
                tgt_col.isEmpty then
              [⟨.to_tableau, .tableau src, .tableau tgt, sequence⟩]
            else []) ++
  (match s.waste.getLast? with
   | some wc =>
      (List.finRange 7).flatMap fun tgt =>
        let tgt_col := s.tableau tgt
        if can_place_on_tableau wc tgt_col.getLast? tgt_col.isEmpty none then
          [⟨.to_tableau, .waste, .tableau tgt, [wc]⟩]
        else []
   | none => [])

/-- `MoveGenerator._generate_pocket_moves`: waste top into each free pocket
slot, then each occupied pocket's card onto every legal tableau target. -/
def _generate_pocket_moves (s : GameState) : List Move :=
  (match s.waste.getLast? with
   | some wc =>
      (if s.pocket1 = .empty then
        [⟨.to_pocket, .waste, .pocket 1, [wc]⟩] else []) ++
      (if s.pocket2 = .empty then
        [⟨.to_pocket, .waste, .pocket 2, [wc]⟩] else [])
   | none => []) ++
  ((pocketPairs s).flatMap fun p =>
    match p.2 with
    | .held c =>
        (List.finRange 7).flatMap fun tgt =>
          let tgt_col := s.tableau tgt
          if can_place_on_tableau c tgt_col.getLast? tgt_col.isEmpty none then
            [⟨.from_pocket, .pocket p.1, .tableau tgt, [c]⟩]
          else []
    | _ => [])

/-- `MoveGenerator._generate_stock_moves`: draw when stock is non-empty,
else recycle when the waste holds more than one card. -/
def _generate_stock_moves (s : GameState) : List Move :=
  if !s.stock.isEmpty then [⟨.draw_stock, .stock, .waste, []⟩]
  else if s.waste.length > 1 then [⟨.recycle_waste, .waste, .stock, []⟩]
  else []

/-- `MoveGenerator.generate_all_moves`. -/
def generate_all_moves (s : GameState) : List Move :=
  _generate_foundation_moves s ++ _generate_tableau_moves s ++
  _generate_pocket_moves s ++ _generate_stock_moves s

end MoveGenerator

/-- `SolverResult` in `solver.py`. -/
structure SolverResult where
  winnable : Bool
  solution : List Move
  nodes_explored : Nat
  solve_time_ms : Nat
  dead_ends : Nat
  max_depth : Nat
deriving DecidableEq, Repr

namespace Solver

/-- `Solver._is_won`: all 52 cards are on foundations. -/
def _is_won (s : GameState) : Bool :=
  foundation_count s == 52

/-- `Solver._reveal_card_if_needed`: after a removal from column `col_idx`,
if the column is non-empty and face-down cards remain, bump the face-up
count (capped at the column length) and lower the face-down count (Python
`max(0, fd - 1)`, i.e. truncated subtraction). -/
def _reveal_card_if_needed (s : GameState) (col_idx : Fin 7) : GameState :=
  let col := s.tableau col_idx
  let face_up_count := s.column_state.faceUpCounts col_idx
  let face_down_count := s.column_state.faceDownCounts col_idx
  if !col.isEmpty && face_down_count > 0 then
    { s with column_state :=
        { s.column_state with
            faceUpCounts := Function.update s.column_state.faceUpCounts
              col_idx (min (face_up_count + 1) col.length)
            faceDownCounts := Function.update s.column_state.faceDownCounts
              col_idx (face_down_count - 1) } }
  else s

/-- Write one foundation pile of the two-level foundations dict. -/
def setFoundation (f : FoundationFam → Suit → List Card)
    (ft : FoundationFam) (su : Suit) (pile : List Card) :
    FoundationFam → Suit → List Card :=
  Function.update f ft (Function.update (f ft) su pile)

/-- The column type string assigned by the tableau/pocket apply functions
when a move fills a previously empty column. -/
def column_type_of (first_card : Card) : Option String :=
  if first_card.rank = .RK then some "king"
  else if first_card.rank = .RA then some "ace"
  else some "traditional"

/-- Python `for _ in cards: if source_col: source_col.pop()`: drop the last
element once per card, guarded by non-emptiness (dropping from an empty list
is a no-op either way). -/
def popPerCard (col : List Card) : Nat → List Card
  | 0 => col
  | n + 1 => popPerCard col.dropLast n

/-- `Solver._apply_foundation_move`.  `none` models the exception path
(`move.cards[0]` on an empty list, or a locator dict without the keys this
function reads). -/
def _apply_foundation_move (s : GameState) (m : Move) : Option GameState :=
  match m.cards.head? with
  | none => none
  | some card =>
    match m.target with
    | .foundation ft su =>
      let s1 :=
        match m.source with
        | .tableau col_idx =>
            let col := s.tableau col_idx
            if col.getLast? = some card then
              _reveal_card_if_needed
                { s with tableau :=
                    (Function.update s.tableau col_idx col.dropLast) } col_idx
            else s
        | .waste =>
            if s.waste.getLast? = some card then
              { s with waste := s.waste.dropLast }
            else s
        | .pocket pocket_num =>
            if pocket_num = 1 ∧ s.pocket1 = Pocket.held card then
              { s with pocket1 := .empty }
            else if pocket_num = 2 ∧ s.pocket2 = Pocket.held card then
              { s with pocket2 := .empty }
            else s
        | .stock => s
      some { s1 with foundations :=
        setFoundation s1.foundations ft su (s1.foundations ft su ++ [card]) }
    | _ => none

/-- `Solver._apply_tableau_move`.  The source column is popped once per
moved card, a reveal is attempted, then the cards are appended to the target
column (which in Python is read before the pops but aliases the same list
when source equals target, so reading it after the pops is equivalent);
`none` models the `cards[0]` IndexError when an empty-cards move lands on an
empty column, and locator dicts without the keys read here. -/
def _apply_tableau_move (s : GameState) (m : Move) : Option GameState :=
  match m.target with
  | .tableau target_col_idx =>
    let s1 :=
      match m.source with
      | .tableau source_col_idx =>
          let source_col := s.tableau source_col_idx
          _reveal_card_if_needed
            { s with tableau :=
                (Function.update s.tableau source_col_idx
                  (popPerCard source_col m.cards.length)) } source_col_idx
      | .waste =>
          if s.waste.isEmpty then s else { s with waste := s.waste.dropLast }
      | .pocket pocket_num =>
          if pocket_num = 1 then { s with pocket1 := .empty }
          else if pocket_num = 2 then { s with pocket2 := .empty }
          else s
      | .stock => s
    let target_col := s1.tableau target_col_idx ++ m.cards
    let s2 := { s1 with tableau :=
      (Function.update s1.tableau target_col_idx target_col) }
    if target_col.length = m.cards.length then
      match m.cards.head? with
      | none => none
      | some first_card =>
          some { s2 with column_state := { s2.column_state with
            types := Function.update s2.column_state.types target_col_idx
              (column_type_of first_card) } }
    else some s2
  | _ => none

/-- `Solver._apply_to_pocket_move`: pop the waste top (if any) and overwrite
the target pocket with the moved card. -/
def _apply_to_pocket_move (s : GameState) (m : Move) : Option GameState :=
  match m.cards.head? with
  | none => none
  | some card =>
    match m.target with
    | .pocket pocket_num =>
      let s1 :=
        if s.waste.isEmpty then s else { s with waste := s.waste.dropLast }
      if pocket_num = 1 then some { s1 with pocket1 := .held card }
      else if pocket_num = 2 then some { s1 with pocket2 := .held card }
      else some s1
    | _ => none

/-- `Solver._apply_from_pocket_move`: empty the source pocket when it holds
exactly the moved card, append the card to the target column, and assign the
column type when the column was previously empty. -/
def _apply_from_pocket_move (s : GameState) (m : Move) : Option GameState :=
  match m.cards.head? with
  | none => none
  | some card =>
    match m.source with
    | .pocket pocket_num =>
      match m.target with
      | .tableau target_col_idx =>
        let s1 :=
          if pocket_num = 1 ∧ s.pocket1 = Pocket.held card then
            { s with pocket1 := .empty }
          else if pocket_num = 2 ∧ s.pocket2 = Pocket.held card then
            { s with pocket2 := .empty }
          else s
        let target_col := s1.tableau target_col_idx ++ [card]
        let s2 := { s1 with tableau :=
          (Function.update s1.tableau target_col_idx target_col) }
        if target_col.length = 1 then
          some { s2 with column_state := { s2.column_state with
            types := Function.update s2.column_state.types target_col_idx
              (column_type_of card) } }
        else some s2
      | _ => none
    | _ => none

/-- `Solver._apply_draw_stock`: move the front stock card to the top of the
waste. -/
def _apply_draw_stock (s : GameState) : GameState :=
  match s.stock with
  | [] => s
  | c :: rest => { s with stock := rest, waste := s.waste ++ [c] }

/-- `Solver._apply_recycle_waste`: keep the waste top in waste and prepend
the remaining waste cards onto the stock.  When the waste holds exactly one
card the source duplicates it (`cards` is the whole waste and the waste
keeps its top); the generator never emits that move, but the function is
modelled as written. -/
def _apply_recycle_waste (s : GameState) : GameState :=
  match s.waste.getLast? with
  | none => s
  | some top =>
      let cards := if s.waste.length > 1 then s.waste.dropLast else s.waste
      { s with waste := [top], stock := cards ++ s.stock }

/-- `Solver._apply_move`: deep-copy dispatch on the move type; `none` models
the `except Exception` branch and the unknown-move-type branch. -/
def _apply_move (s : GameState) (m : Move) : Option GameState :=
  match m.move_type with
  | .to_foundation => _apply_foundation_move s m
  | .to_tableau => _apply_tableau_move s m
  | .to_pocket => _apply_to_pocket_move s m
  | .from_pocket => _apply_from_pocket_move s m
  | .draw_stock => some (_apply_draw_stock s)
  | .recycle_waste => some (_apply_recycle_waste s)

end Solver

/-- The type of modelled fingerprints (see `get_fingerprint`). -/
abbrev Fingerprint := String × String × String × Nat

namespace Solver

/-- Outcome of the `for move in moves:` loop of one BFS iteration: either a
win was returned, or the loop finished having extended the queue, the
visited set and the node counter. -/
inductive ExpandOutcome where
  | win (solution : List Move) (nodes : Nat)
  | cont (queue : List (GameState × List Move)) (visited : List Fingerprint)
      (nodes : Nat)

/-- The `for move in moves:` loop body of `Solver.solve`: apply each move,
return immediately on a won child, skip children with visited fingerprints,
otherwise mark visited, count and enqueue. -/
def expand (st : GameState) (path : List Move) (moves : List Move)
    (queue : List (GameState × List Move)) (visited : List Fingerprint)
    (nodes : Nat) : ExpandOutcome :=
  match moves with
  | [] => .cont queue visited nodes
  | m :: rest =>
    match _apply_move st m with
    | none => expand st path rest queue visited nodes
    | some new_state =>
      if _is_won new_state then .win (path ++ [m]) nodes
      else
        let fp := get_fingerprint new_state
        if fp ∈ visited then expand st path rest queue visited nodes
        else expand st path rest (queue ++ [(new_state, path ++ [m])])
          (fp :: visited) (nodes + 1)

/-- The `while queue:` loop of `Solver.solve`, with explicit fuel counting
loop iterations (the time-limit branch is not modelled; see the header).
Arguments after the fuel: queue, visited set, `nodes_explored`, `dead_ends`,
`max_depth`. -/
def solveLoop (max_nodes : Nat) :
    Nat → List (GameState × List Move) → List Fingerprint → Nat → Nat →
    Nat → Option SolverResult
  | 0, _, _, _, _, _ => none
  | fuel + 1, queue, visited, nodes, deadEnds, maxDepth =>
    match queue with
    | [] => some ⟨false, [], nodes, 0, deadEnds, maxDepth⟩
    | (st, path) :: rest =>
      if nodes ≥ max_nodes then
        some ⟨false, [], nodes, 0, deadEnds, maxDepth⟩
      else
        let depth := path.length
        let maxDepth2 := max maxDepth depth
        let moves := MoveGenerator.generate_all_moves st
        if moves.isEmpty then
          solveLoop max_nodes fuel rest visited nodes (deadEnds + 1) maxDepth2
        else
          match expand st path moves rest visited nodes with
          | .win sol nodes2 =>
              some ⟨true, sol, nodes2, 0, deadEnds, max maxDepth2 (depth + 1)⟩
          | .cont queue2 visited2 nodes2 =>
              solveLoop max_nodes fuel queue2 visited2 nodes2 deadEnds
                maxDepth2

/-- `Solver.solve` for a solver constructed with `max_nodes`: immediate-win
check, then the BFS loop seeded with the initial state and its fingerprint.
-/
def solve (max_nodes fuel : Nat) (initial_state : GameState) :
    Option SolverResult :=
  if _is_won initial_state then some ⟨true, [], 1, 0, 0, 0⟩
  else
    solveLoop max_nodes fuel [(initial_state, [])]
      [get_fingerprint initial_state] 1 0 0

end Solver

/-- `DifficultyMetrics` in `difficulty.py`. -/
structure DifficultyMetrics where
  solution_moves : Nat
  nodes_explored : Nat
  dead_ends : Nat
  solve_time_ms : Nat
  branching_factor : ℚ
  starter_accessibility : Nat
  difficulty_score : ℚ
  recommended_tier : String
deriving DecidableEq, Repr

namespace DifficultyAnalyzer

/-- `DifficultyAnalyzer.EASY_MAX`. -/
def EASY_MAX : ℚ := 40

/-- `DifficultyAnalyzer.MODERATE_MAX`. -/
def MODERATE_MAX : ℚ := 80

/-- `DifficultyAnalyzer.calculate_difficulty_score` (floats as exact
rationals). -/
def calculate_difficulty_score (solution_moves dead_ends : Nat)
    (branching_factor : ℚ) (starter_accessibility : Nat) : ℚ :=
  (solution_moves : ℚ) * (0.3 : ℚ) + (dead_ends : ℚ) * 2 +
    (3 - min branching_factor 3) * 20 + (starter_accessibility : ℚ) * 5

/-- `DifficultyAnalyzer.determine_tier`. -/
def determine_tier (difficulty_score : ℚ) : String :=
  if difficulty_score ≤ EASY_MAX then "easy"
  else if difficulty_score ≤ MODERATE_MAX then "moderate"
  else "hard"

/-- Python `card.rank in ('6', '7')`. -/
def is_starter (c : Card) : Bool :=
  c.rank == Rank.R6 || c.rank == Rank.R7

/-- The burial depths of the starters collected by
`DifficultyAnalyzer.analyze_starter_accessibility`: one entry per rank-6/7
card of each column, `len(col) - col.index(card) - 1`. -/
def starter_depths (state : GameState) : List Nat :=
  (List.finRange 7).flatMap fun i =>
    let col := state.tableau i
    (col.filter is_starter).map fun c => col.length - col.indexOf c - 1

/-- `DifficultyAnalyzer.analyze_starter_accessibility`: the running maximum
of the starter burial depths, 0 when there are none.  The `solution_path`
argument is unused by the source beyond its presence. -/
def analyze_starter_accessibility (state : GameState)
    (solution_path : List Move) : Nat :=
  let _ := solution_path
  (starter_depths state).foldl max 0

/-- The burial depths scanned by
`DifficultyAnalyzer._estimate_starter_accessibility`: only indices from
`faceDownCounts[col]` onward are examined. -/
def estimate_depths (state : GameState) : List Nat :=
  (List.finRange 7).flatMap fun i =>
    let col := state.tableau i
    let fd := state.column_state.faceDownCounts i
    ((col.drop fd).enum.filter fun p => is_starter p.2).map fun p =>
      col.length - (fd + p.1) - 1

/-- `DifficultyAnalyzer._estimate_starter_accessibility`. -/
def _estimate_starter_accessibility (state : GameState) : Nat :=
  (estimate_depths state).foldl max 0

/-- `DifficultyAnalyzer.calculate_branching_factor`: 0 when there is no
solution, else `nodes_explored / solution_moves` (exact division). -/
def calculate_branching_factor (nodes_explored solution_moves : Nat) : ℚ :=
  if solution_moves = 0 then 0
  else (nodes_explored : ℚ) / (solution_moves : ℚ)

/-- `DifficultyAnalyzer.analyze_solution`.  The Python default
`solution_path=None` and the truthiness test `if solution_path:` are
modelled by an `Option (List Move)` that selects the estimate path for
`none` and for an empty list. -/
def analyze_solution (initial_state : GameState)
    (solution_moves nodes_explored dead_ends solve_time_ms : Nat)
    (solution_path : Option (List Move)) : DifficultyMetrics :=
  let starter_accessibility :=
    match solution_path with
    | some p =>
        if p.isEmpty then _estimate_starter_accessibility initial_state
        else analyze_starter_accessibility initial_state p
    | none => _estimate_starter_accessibility initial_state
  let branching_factor :=
    calculate_branching_factor nodes_explored solution_moves
  let difficulty_score :=
    calculate_difficulty_score solution_moves dead_ends branching_factor
      starter_accessibility
  let recommended_tier := determine_tier difficulty_score
  { solution_moves := solution_moves
    nodes_explored := nodes_explored
    dead_ends := dead_ends
    solve_time_ms := solve_time_ms
    branching_factor := branching_factor
    starter_accessibility := starter_accessibility
    difficulty_score := difficulty_score
    recommended_tier := recommended_tier }

end DifficultyAnalyzer

/-- All thirteen ranks in the dealing order of `create_new_game`. -/
def allRanks : List Rank :=
  [.RA, .R2, .R3, .R4, .R5, .R6, .R7, .R8, .R9, .R10, .RJ, .RQ, .RK]

/-- The 52-card deck as dealt by `create_new_game`
(`[Card(r, s) for s in suits for r in ranks]`). -/
def fullDeckList : List Card :=
  allSuits.flatMap fun su => allRanks.map fun r => ⟨r, su⟩

/-- The multiset of cards held by the seven tableau columns. -/
def tabMultiset (t : Fin 7 → List Card) : Multiset Card :=
  ∑ i : Fin 7, (t i : Multiset Card)

/-- The multiset of cards held by one pocket slot. -/
def pocketMultiset : Pocket → Multiset Card
  | .held c => {c}
  | .empty => 0
  | .na => 0

/-- The multiset of cards held by the eight foundation piles. -/
def foundationsMultiset (f : FoundationFam → Suit → List Card) :
    Multiset Card :=
  ∑ ft : FoundationFam, ∑ su : Suit, (f ft su : Multiset Card)

/-- The multiset of all cards of a state, across tableau, stock, waste,
pockets and both foundation families: the quantity the global card-
conservation invariant speaks about. -/
def cardMultiset (s : GameState) : Multiset Card :=
  tabMultiset s.tableau + ↑s.stock + ↑s.waste +
    pocketMultiset s.pocket1 + pocketMultiset s.pocket2 +
    foundationsMultiset s.foundations

/-- Starter accessibility as the specification words it: the maximum number
of cards stacked above any rank-6-or-7 card across tableau columns
(position-based; used to compare against the code's computation). -/
def spec_starter_accessibility (s : GameState) : Nat :=
  ((List.finRange 7).flatMap fun i =>
    let col := s.tableau i
    (col.enum.filter fun p => DifficultyAnalyzer.is_starter p.2).map fun p =>
      col.length - p.1 - 1).foldl max 0

/-- An entirely empty game state (no cards anywhere), used to instantiate
universally quantified theorems. -/
def emptyState : GameState where
  metadata := ""
  tableau := fun _ => []
  stock := []
  waste := []
  pocket1 := .empty
  pocket2 := .na
  foundations := fun _ _ => []
  column_state := ⟨fun _ => none, fun _ => 0, fun _ => 0⟩

/-- State witnessing the starter-accessibility divergence: column 0 holds a
face-down 6 of hearts underneath a face-up 8 of clubs. -/
def c9state : GameState where
  metadata := ""
  tableau := fun i => if i = 0 then [⟨.R6, .h⟩, ⟨.R8, .c⟩] else []
  stock := []
  waste := []
  pocket1 := .empty
  pocket2 := .na
  foundations := fun _ _ => []
  column_state :=
    ⟨fun _ => none, fun i => if i = 0 then 1 else 0,
     fun i => if i = 0 then 1 else 0⟩

instance : Fintype Rank :=
  ⟨⟨{.RA, .R2, .R3, .R4, .R5, .R6, .R7, .R8, .R9, .R10, .RJ, .RQ, .RK},
    by decide⟩, fun x => by cases x <;> decide⟩

instance : Fintype Card :=
  Fintype.ofList fullDeckList (by
    intro c
    rcases c with ⟨r, su⟩
    cases r <;> cases su <;> decide)

/-- A valid 52-card state whose whole deck sits in the waste. -/
def c5stateA : GameState where
  metadata := "A"
  tableau := fun _ => []
  stock := []
  waste := fullDeckList
  pocket1 := .empty
  pocket2 := .na
  foundations := fun _ _ => []
  column_state := ⟨fun _ => none, fun _ => 0, fun _ => 0⟩

/-- The same 52-card state with the two bottom-most waste cards swapped:
the cards occupy different positions, but every fingerprint component
(tableau string, stock top, waste top, foundation count) is unchanged. -/
def c5stateB : GameState where
  metadata := "A"
  tableau := fun _ => []
  stock := []
  waste := ⟨.R2, .h⟩ :: ⟨.RA, .h⟩ :: fullDeckList.drop 2
  pocket1 := .empty
  pocket2 := .na
  foundations := fun _ _ => []
  column_state := ⟨fun _ => none, fun _ => 0, fun _ => 0⟩

/-- `c5stateA` with different metadata and pocket availability: all four
fingerprint inputs agree with `c5stateA`. -/
def c5stateC : GameState where
  metadata := "independently constructed"
  tableau := fun _ => []
  stock := []
  waste := fullDeckList
  pocket1 := .na
  pocket2 := .na
  foundations := fun _ _ => []
  column_state := ⟨fun _ => none, fun _ => 0, fun _ => 0⟩

/-- State exhibiting the reveal bookkeeping slip: column 0 holds a
face-down 2 of clubs under two face-up cards (9 of spades, 7 of hearts);
all foundations are empty, so the 7 of hearts is playable to the up-hearts
foundation. -/
def c4state : GameState where
  metadata := ""
  tableau := fun i =>
    if i = 0 then [⟨.R2, .c⟩, ⟨.R9, .s⟩, ⟨.R7, .h⟩] else []
  stock := []
  waste := []
  pocket1 := .na
  pocket2 := .na
  foundations := fun _ _ => []
  column_state :=
    ⟨fun _ => none, fun i => if i = 0 then 2 else 0,
     fun i => if i = 0 then 1 else 0⟩

/-- The generated foundation move of the 7 of hearts out of column 0 of
`c4state`. -/
def c4move : Move :=
  ⟨.to_foundation, .tableau 0, .foundation .up .h, [⟨.R7, .h⟩]⟩

/-- Application of a move sequence where every move must be one the Move
Generator produces for the state it is applied to; `none` when a move is
not generated or fails to apply. -/
def playSeq : GameState → List Move → Option GameState
  | s, [] => some s
  | s, m :: ms =>
      if m ∈ MoveGenerator.generate_all_moves s then
        match Solver._apply_move s m with
        | some s2 => playSeq s2 ms
        | none => none
      else none

/-- The state reached from `c5stateA` by one recycle-waste move. -/
def c2afterState : GameState where
  metadata := "A"
  tableau := fun _ => []
  stock := fullDeckList.dropLast
  waste := [⟨.RK, .s⟩]
  pocket1 := .empty
  pocket2 := .na
  foundations := fun _ _ => []
  column_state := ⟨fun _ => none, fun _ => 0, fun _ => 0⟩

/-- The first `n` cards of a completed `up` foundation pile of suit `su`
(7 ascending to K). -/
def upTo (su : Suit) (n : Nat) : List Card :=
  ([Rank.R7, .R8, .R9, .R10, .RJ, .RQ, .RK].take n).map fun r => ⟨r, su⟩

/-- The first `n` cards of a completed `down` foundation pile of suit `su`
(6 descending to A). -/
def downTo (su : Suit) (n : Nat) : List Card :=
  ([Rank.R6, .R5, .R4, .R3, .R2, .RA].take n).map fun r => ⟨r, su⟩

/-- A valid 52-card endgame used to exhibit a fingerprint-collision pruning:
every foundation pile is complete except up-hearts (empty); the seven
outstanding hearts sit as column 0 = [K♥ bottom, Q♥ top], pocket 1 = 10♥,
waste = [J♥, 8♥, 9♥, 7♥ (top)], stock empty. -/
def c3state : GameState where
  metadata := ""
  tableau := fun i => if i = 0 then [⟨.RK, .h⟩, ⟨.RQ, .h⟩] else []
  stock := []
  waste := [⟨.RJ, .h⟩, ⟨.R8, .h⟩, ⟨.R9, .h⟩, ⟨.R7, .h⟩]
  pocket1 := .held ⟨.R10, .h⟩
  pocket2 := .na
  foundations := fun ft su =>
    match ft, su with
    | .up, .h => []
    | .up, su => upTo su 7
    | .down, su => downTo su 6
  column_state := ⟨fun _ => none, fun i => if i = 0 then 2 else 0, fun _ => 0⟩

/-- The 12-move solution the solver returns on `c3state`: it plays 7♥ before
recycling, which leaves J♥ buried at the bottom of the waste and forces a
second recycle round. -/
def c3solution : List Move :=
  [ ⟨.to_foundation, .waste, .foundation .up .h, [⟨.R7, .h⟩]⟩
  , ⟨.recycle_waste, .waste, .stock, []⟩
  , ⟨.draw_stock, .stock, .waste, []⟩
  , ⟨.draw_stock, .stock, .waste, []⟩
  , ⟨.to_foundation, .waste, .foundation .up .h, [⟨.R8, .h⟩]⟩
  , ⟨.recycle_waste, .waste, .stock, []⟩
  , ⟨.draw_stock, .stock, .waste, []⟩
  , ⟨.to_foundation, .waste, .foundation .up .h, [⟨.R9, .h⟩]⟩
  , ⟨.to_foundation, .pocket 1, .foundation .up .h, [⟨.R10, .h⟩]⟩
  , ⟨.to_foundation, .waste, .foundation .up .h, [⟨.RJ, .h⟩]⟩
  , ⟨.to_foundation, .tableau 0, .foundation .up .h, [⟨.RQ, .h⟩]⟩
  , ⟨.to_foundation, .tableau 0, .foundation .up .h, [⟨.RK, .h⟩]⟩ ]

/-- An 11-move winning sequence on `c3state`: recycling first keeps J♥ in
stock behind 8♥ and 9♥, so one recycle suffices.  The breadth-first search
prunes the state this line reaches at depth 3 because its fingerprint
(tableau string, stock front, waste top, foundation count) coincides with
the fingerprint of the depth-3 state of the 12-move line, although the two
states differ in the position of J♥ (stock body versus waste body). -/
def c3optimal : List Move :=
  [ ⟨.recycle_waste, .waste, .stock, []⟩
  , ⟨.to_foundation, .waste, .foundation .up .h, [⟨.R7, .h⟩]⟩
  , ⟨.draw_stock, .stock, .waste, []⟩
  , ⟨.draw_stock, .stock, .waste, []⟩
  , ⟨.to_foundation, .waste, .foundation .up .h, [⟨.R8, .h⟩]⟩
  , ⟨.draw_stock, .stock, .waste, []⟩
  , ⟨.to_foundation, .waste, .foundation .up .h, [⟨.R9, .h⟩]⟩
  , ⟨.to_foundation, .pocket 1, .foundation .up .h, [⟨.R10, .h⟩]⟩
  , ⟨.to_foundation, .waste, .foundation .up .h, [⟨.RJ, .h⟩]⟩
  , ⟨.to_foundation, .tableau 0, .foundation .up .h, [⟨.RQ, .h⟩]⟩
  , ⟨.to_foundation, .tableau 0, .foundation .up .h, [⟨.RK, .h⟩]⟩ ]

/-- Invariant of the BFS queue: every entry's path legally reaches its
state from the initial state. -/
def QInv (s0 : GameState) (queue : List (GameState × List Move)) : Prop :=
  ∀ e ∈ queue, playSeq s0 e.2 = some e.1

/-- A definitively unwinnable 52-card state: column 0 is topped by Q♠,
which needs J♠ (buried beneath it) on the up-spades pile before it can ever
move, so the column is frozen; the waste cards J♣, Q♣, Q♦ likewise all wait
on cards buried in the column.  The search space is a finite dead rotor of
draw/recycle/pocket moves and the solver exhausts its frontier. -/
def c1x : GameState where
  metadata := ""
  tableau := fun i => if i = 0 then
      [⟨.RK, .s⟩, ⟨.RK, .c⟩, ⟨.RK, .d⟩, ⟨.RJ, .s⟩, ⟨.RJ, .d⟩,
       ⟨.R10, .c⟩, ⟨.RQ, .s⟩]
    else []
  stock := []
  waste := [⟨.RJ, .c⟩, ⟨.RQ, .c⟩, ⟨.RQ, .d⟩]
  pocket1 := .empty
  pocket2 := .na
  foundations := fun ft su =>
    match ft, su with
    | .up, .s => upTo .s 4
    | .up, .c => upTo .c 3
    | .up, .d => upTo .d 4
    | .up, .h => upTo .h 7
    | .down, su => downTo su 6
  column_state := ⟨fun _ => none, fun i => if i = 0 then 1 else 0,
    fun i => if i = 0 then 6 else 0⟩

/-- A winnable 52-card state (the four outstanding hearts sit in the
waste) on which a node budget of 8 halts the search with exactly the same
`SolverResult` as the frontier-exhausted run on `c1x`. -/
def c1y : GameState where
  metadata := ""
  tableau := fun _ => []
  stock := []
  waste := [⟨.R10, .h⟩, ⟨.RQ, .h⟩, ⟨.RK, .h⟩, ⟨.RJ, .h⟩]
  pocket1 := .na
  pocket2 := .na
  foundations := fun ft su =>
    match ft, su with
    | .up, .h => upTo .h 3
    | .up, su => upTo su 7
    | .down, su => downTo su 6
  column_state := ⟨fun _ => none, fun _ => 0, fun _ => 0⟩

/-- An 8-move winning sequence on `c1y`; the solver itself also finds it
when given budget 20000. -/
def c1ySolution : List Move :=
  [ ⟨.recycle_waste, .waste, .stock, []⟩
  , ⟨.draw_stock, .stock, .waste, []⟩
  , ⟨.to_foundation, .waste, .foundation .up .h, [⟨.R10, .h⟩]⟩
  , ⟨.to_foundation, .waste, .foundation .up .h, [⟨.RJ, .h⟩]⟩
  , ⟨.draw_stock, .stock, .waste, []⟩
  , ⟨.to_foundation, .waste, .foundation .up .h, [⟨.RQ, .h⟩]⟩
  , ⟨.draw_stock, .stock, .waste, []⟩
  , ⟨.to_foundation, .waste, .foundation .up .h, [⟨.RK, .h⟩]⟩ ]

/-- One closure step: extend a list of states with every state reachable
from a listed state by one generated, successfully applied move. -/
def closureStep (S : List GameState) : List GameState :=
  S.foldl (fun acc s =>
    (MoveGenerator.generate_all_moves s).foldl (fun acc2 m =>
      match Solver._apply_move s m with
      | some t => if t ∈ acc2 then acc2 else acc2 ++ [t]
      | none => acc2) acc) S

/-- The full set of states reachable from `c1x` (its reachability diameter
is 8, so ten closure steps reach the fixpoint). -/
def c1closure : List GameState := closureStep^[10] [c1x]

/-- Decidable check that a state list is closed under every generated,
successfully applied move. -/
def closedUnderMoves (S : List GameState) : Bool :=
  S.all fun s =>
    (MoveGenerator.generate_all_moves s).all fun m =>
      match Solver._apply_move s m with
      | some t => decide (t ∈ S)
      | none => true

/-- Decidable check that no state in a list is won. -/
def noneWon (S : List GameState) : Bool :=
  S.all fun s => !Solver._is_won s

-- ===================== THEOREMS =====================

/-- Each numeric rank is between 1 (A) and 13 (K). -/
theorem numeric_rank_bounds (c : Card) :
    1 ≤ c.numeric_rank ∧ c.numeric_rank ≤ 13 := by
  rcases c with ⟨r, su⟩
  cases r <;> simp [Card.numeric_rank]

/-- C6.  Foundation placement rule: on an empty pile only a 7 (family up)
or a 6 (family down) may start; on a non-empty pile the card must match the
top's suit and sit exactly one numeric rank above (up) or below (down) the
top; a K-topped up pile and an A-topped down pile accept nothing; and the
spec's literal rule-table cases hold. -/
theorem claim_C6_foundation_rule :
    (∀ (card : Card) (fam : FoundationFam) (pile : List Card),
      pile.getLast? = none →
      (MoveValidator.can_place_on_foundation card fam pile = true ↔
        (fam = .up ∧ card.rank = .R7) ∨ (fam = .down ∧ card.rank = .R6))) ∧
    (∀ (card : Card) (fam : FoundationFam) (pile : List Card) (top : Card),
      pile.getLast? = some top →
      (MoveValidator.can_place_on_foundation card fam pile = true ↔
        card.suit = top.suit ∧
          ((fam = .up ∧
              (card.numeric_rank : ℤ) = (top.numeric_rank : ℤ) + 1) ∨
           (fam = .down ∧
              (card.numeric_rank : ℤ) = (top.numeric_rank : ℤ) - 1)))) ∧
    (∀ (card : Card) (pile : List Card) (top : Card),
      pile.getLast? = some top → top.rank = .RK →
      MoveValidator.can_place_on_foundation card .up pile = false) ∧
    (∀ (card : Card) (pile : List Card) (top : Card),
      pile.getLast? = some top → top.rank = .RA →
      MoveValidator.can_place_on_foundation card .down pile = false) ∧
    (MoveValidator.can_place_on_foundation ⟨.R7, .h⟩ .up [] = true ∧
     MoveValidator.can_place_on_foundation ⟨.R8, .h⟩ .up [] = false ∧
     MoveValidator.can_place_on_foundation ⟨.R6, .h⟩ .up [] = false ∧
     MoveValidator.can_place_on_foundation ⟨.R8, .h⟩ .up [⟨.R7, .h⟩] = true ∧
     MoveValidator.can_place_on_foundation ⟨.R9, .h⟩ .up [⟨.R7, .h⟩] = false ∧
     MoveValidator.can_place_on_foundation ⟨.R8, .d⟩ .up [⟨.R7, .h⟩] = false ∧
     MoveValidator.can_place_on_foundation ⟨.R6, .h⟩ .down [] = true ∧
     MoveValidator.can_place_on_foundation ⟨.R7, .h⟩ .down [] = false ∧
     MoveValidator.can_place_on_foundation ⟨.R5, .h⟩ .down [⟨.R6, .h⟩] = true) := by
  refine ⟨?_, ?_, ?_, ?_, by decide⟩
  · intro card fam pile h
    unfold MoveValidator.can_place_on_foundation
    rw [h]
    cases fam <;> simp [beq_iff_eq]
  · intro card fam pile top h
    unfold MoveValidator.can_place_on_foundation
    rw [h]
    by_cases hs : top.suit = card.suit
    · cases fam <;> simp [hs, beq_iff_eq, eq_comm (a := card.suit)] <;> omega
    · cases fam <;> simp [hs, beq_iff_eq] <;> exact fun hc _ => hs hc.symm
  · intro card pile top h hk
    have h13 : top.numeric_rank = 13 := by simp [Card.numeric_rank, hk]
    have hb := numeric_rank_bounds card
    unfold MoveValidator.can_place_on_foundation
    rw [h]
    by_cases hs : top.suit = card.suit
    · simp [hs, beq_iff_eq, h13]
      omega
    · simp [hs]
  · intro card pile top h ha
    have h1 : top.numeric_rank = 1 := by simp [Card.numeric_rank, ha]
    have hb := numeric_rank_bounds card
    unfold MoveValidator.can_place_on_foundation
    rw [h]
    by_cases hs : top.suit = card.suit
    · simp [hs, beq_iff_eq, h1]
      omega
    · simp [hs]

/-- C6 witness: the characterization applied at concrete inputs (an 8 of
hearts on an empty up pile, and on a K-topped up pile). -/
theorem claim_C6_foundation_rule_witness :
    MoveValidator.can_place_on_foundation ⟨.R8, .h⟩ .up [] = false ∧
    MoveValidator.can_place_on_foundation ⟨.R8, .h⟩ .up [⟨.RK, .h⟩] = false :=
  ⟨by
    have h := claim_C6_foundation_rule.1 ⟨.R8, .h⟩ .up [] rfl
    refine Bool.eq_false_iff.mpr fun ht => ?_
    rcases h.mp ht with ⟨_, h7⟩ | ⟨hud, _⟩
    · exact absurd h7 (by decide)
    · exact absurd hud (by decide),
   claim_C6_foundation_rule.2.2.1 ⟨.R8, .h⟩ [⟨.RK, .h⟩] ⟨.RK, .h⟩ rfl rfl⟩

/-- The tail check of `can_place_sequence_on_tableau` is exactly the
consecutive-pairs (predecessor) condition. -/
theorem sequence_chain_ok_iff (l : List Card) :
    MoveValidator.sequence_chain_ok l = true ↔
      List.Chain' (fun a b =>
        MoveValidator.can_place_on_tableau b (some a) false none = true) l := by
  induction l with
  | nil => simp [MoveValidator.sequence_chain_ok]
  | cons a t ih =>
    cases t with
    | nil => simp [MoveValidator.sequence_chain_ok]
    | cons b r =>
      rw [MoveValidator.sequence_chain_ok]
      simp only [Bool.and_eq_true, List.chain'_cons, ih]

/-- C7.  Tableau placement rule: an empty column accepts exactly rank A or
K; a non-empty column accepts exactly an opposite-color card one numeric
rank below its top; and a non-empty sequence is accepted exactly when its
first card passes the single-card rule against the target and every later
card passes it against its immediate predecessor. -/
theorem claim_C7_tableau_rule :
    (∀ (card : Card) (target_card : Option Card) (ct : Option String),
      (MoveValidator.can_place_on_tableau card target_card true ct = true ↔
        card.rank = .RA ∨ card.rank = .RK)) ∧
    (∀ (card top : Card) (ct : Option String),
      (MoveValidator.can_place_on_tableau card (some top) false ct = true ↔
        card.color ≠ top.color ∧
          (card.numeric_rank : ℤ) = (top.numeric_rank : ℤ) - 1)) ∧
    (∀ (x : Card) (xs : List Card) (target_card : Option Card)
        (target_column_empty : Bool),
      (MoveValidator.can_place_sequence_on_tableau (x :: xs) target_card
          target_column_empty = true ↔
        (MoveValidator.can_place_on_tableau x target_card
            target_column_empty none = true ∧
          List.Chain' (fun a b =>
            MoveValidator.can_place_on_tableau b (some a) false none = true)
            (x :: xs)))) := by
  refine ⟨?_, ?_, ?_⟩
  · intro card target_card ct
    unfold MoveValidator.can_place_on_tableau
    simp [beq_iff_eq]
  · intro card top ct
    unfold MoveValidator.can_place_on_tableau
    by_cases hc : card.color = top.color
    · simp [hc, beq_iff_eq]
    · simp [hc, beq_iff_eq]
      omega
  · intro x xs target_card target_column_empty
    unfold MoveValidator.can_place_sequence_on_tableau
    simp only [Bool.and_eq_true, sequence_chain_ok_iff]

/-- C8.  Budget respected: on any state that is not already won, `solve`
with `max_nodes = 1` returns within its very first loop iteration (any
positive fuel suffices), and the result reports `winnable = false` with
`nodes_explored = 1 ≤ 1`. -/
theorem claim_C8_budget_respected (s : GameState) (fuel : Nat)
    (h : Solver._is_won s = false) :
    Solver.solve 1 (fuel + 1) s = some ⟨false, [], 1, 0, 0, 0⟩ ∧
    ∀ r, Solver.solve 1 (fuel + 1) s = some r →
      r.winnable = false ∧ r.nodes_explored ≤ 1 := by
  have hs : Solver.solve 1 (fuel + 1) s = some ⟨false, [], 1, 0, 0, 0⟩ := by
    unfold Solver.solve
    rw [h]
    simp [Solver.solveLoop]
  refine ⟨hs, fun r hr => ?_⟩
  rw [hs] at hr
  cases hr
  exact ⟨rfl, le_refl 1⟩

/-- C8 witness: the empty state is not won, and `solve` with one node of
budget and one unit of fuel answers immediately. -/
theorem claim_C8_budget_respected_witness :
    Solver._is_won emptyState = false ∧
    Solver.solve 1 1 emptyState = some ⟨false, [], 1, 0, 0, 0⟩ :=
  ⟨by decide, (claim_C8_budget_respected emptyState 0 (by decide)).1⟩

/-- C10.  When `analyze_solution` is called with `solution_moves = 0`, the
branching factor is 0, the score collapses to `60 + 2·deadEnds +
5·starterAccessibility ≥ 60`, and the recommended tier is never
`"easy"`. -/
theorem claim_C10_zero_moves_never_easy (st : GameState)
    (nodes de t : Nat) (sp : Option (List Move)) :
    (DifficultyAnalyzer.analyze_solution st 0 nodes de t sp).branching_factor
        = 0 ∧
    (DifficultyAnalyzer.analyze_solution st 0 nodes de t sp).difficulty_score
        = 60 + 2 * (de : ℚ) + 5 *
          ((DifficultyAnalyzer.analyze_solution st 0 nodes de t
            sp).starter_accessibility : ℚ) ∧
    60 ≤ (DifficultyAnalyzer.analyze_solution st 0 nodes de t
            sp).difficulty_score ∧
    (DifficultyAnalyzer.analyze_solution st 0 nodes de t sp).recommended_tier
        ≠ "easy" := by
  have hbf : DifficultyAnalyzer.calculate_branching_factor nodes 0 = 0 := by
    simp [DifficultyAnalyzer.calculate_branching_factor]
  have hscore : ∀ sa : Nat,
      DifficultyAnalyzer.calculate_difficulty_score 0 de 0 sa =
        60 + 2 * (de : ℚ) + 5 * (sa : ℚ) := by
    intro sa
    simp [DifficultyAnalyzer.calculate_difficulty_score]
    ring
  have hge : ∀ sa : Nat, (60 : ℚ) ≤ 60 + 2 * (de : ℚ) + 5 * (sa : ℚ) := by
    intro sa
    have h1 : (0 : ℚ) ≤ (de : ℚ) := Nat.cast_nonneg de
    have h2 : (0 : ℚ) ≤ (sa : ℚ) := Nat.cast_nonneg sa
    linarith
  have htier : ∀ q : ℚ, 60 ≤ q → DifficultyAnalyzer.determine_tier q ≠ "easy" := by
    intro q hq
    unfold DifficultyAnalyzer.determine_tier DifficultyAnalyzer.EASY_MAX
      DifficultyAnalyzer.MODERATE_MAX
    have : ¬ q ≤ 40 := by linarith
    rw [if_neg this]
    split <;> decide
  refine ⟨?_, ?_, ?_, ?_⟩
  · simp only [DifficultyAnalyzer.analyze_solution, hbf]
  · simp only [DifficultyAnalyzer.analyze_solution, hbf, hscore]
  · simp only [DifficultyAnalyzer.analyze_solution, hbf, hscore]
    exact hge _
  · simp only [DifficultyAnalyzer.analyze_solution, hbf, hscore]
    exact htier _ (hge _)

/-- For a duplicate-free list, mapping a function of `indexOf` over the
filtered elements is the same as mapping it over the matching positions of
the enumeration (generalized over the enumeration offset). -/
theorem filter_indexOf_map_eq_enumFrom {β : Type} (p : Card → Bool)
    (f : Nat → β) :
    ∀ (l : List Card) (n : Nat), l.Nodup →
      (l.filter p).map (fun c => f (l.indexOf c + n)) =
      ((l.enumFrom n).filter fun q => p q.2).map fun q => f q.1 := by
  intro l
  induction l with
  | nil => intro n _; rfl
  | cons a t ih =>
    intro n hnd
    have hat : a ∉ t := (List.nodup_cons.mp hnd).1
    have htn : t.Nodup := (List.nodup_cons.mp hnd).2
    have htail : (t.filter p).map (fun c => f ((a :: t).indexOf c + n)) =
        (t.filter p).map (fun c => f (t.indexOf c + (n + 1))) := by
      refine List.map_congr_left fun c hc => ?_
      have hct : c ∈ t := (List.mem_filter.mp hc).1
      have hca : a ≠ c := fun h => hat (h ▸ hct)
      rw [List.indexOf_cons_ne _ hca]
      congr 1
      omega
    rw [List.enumFrom_cons]
    by_cases hpa : p a = true
    · rw [List.filter_cons_of_pos hpa,
        List.filter_cons_of_pos (by simpa using hpa)]
      simp only [List.map_cons, List.indexOf_cons_self, Nat.zero_add]
      rw [htail, ih (n + 1) htn]
    · rw [List.filter_cons_of_neg (by simpa using hpa),
        List.filter_cons_of_neg (by simpa using hpa)]
      rw [htail, ih (n + 1) htn]

/-- Characterization of the three tier labels of `determine_tier`. -/
theorem determine_tier_iff (q : ℚ) :
    (DifficultyAnalyzer.determine_tier q = "easy" ↔ q ≤ 40) ∧
    (DifficultyAnalyzer.determine_tier q = "moderate" ↔ 40 < q ∧ q ≤ 80) ∧
    (DifficultyAnalyzer.determine_tier q = "hard" ↔ 80 < q) := by
  unfold DifficultyAnalyzer.determine_tier DifficultyAnalyzer.EASY_MAX
    DifficultyAnalyzer.MODERATE_MAX
  split_ifs with h1 h2 <;> refine ⟨?_, ?_, ?_⟩ <;> simp_all
  all_goals linarith

/-- On a state whose columns are duplicate-free (as any state built from
one 52-card deck is), the path-based starter accessibility computed via
`col.index(card)` agrees with the position-based maximum burial depth of
the specification. -/
theorem analyze_starter_eq_spec (st : GameState)
    (h : ∀ i : Fin 7, (st.tableau i).Nodup) (p : List Move) :
    DifficultyAnalyzer.analyze_starter_accessibility st p =
      spec_starter_accessibility st := by
  have hcol : ∀ i : Fin 7,
      ((st.tableau i).filter DifficultyAnalyzer.is_starter).map
        (fun c => (st.tableau i).length - (st.tableau i).indexOf c - 1) =
      (((st.tableau i).enum.filter fun q =>
          DifficultyAnalyzer.is_starter q.2).map fun q =>
        (st.tableau i).length - q.1 - 1) := by
    intro i
    have hmain := filter_indexOf_map_eq_enumFrom DifficultyAnalyzer.is_starter
      (fun k => (st.tableau i).length - k - 1) (st.tableau i) 0 (h i)
    simpa [List.enum] using hmain
  unfold DifficultyAnalyzer.analyze_starter_accessibility
    spec_starter_accessibility DifficultyAnalyzer.starter_depths
  simp only [hcol]

/-- C9 (amended).  The score is exactly
`0.3·moves + 2·deadEnds + 20·(3 − min(branchingFactor, 3)) + 5·sa` for the
starter accessibility `sa` the analyzer computes, the branching factor is
`nodesExplored / solutionMoves` (0 when `solutionMoves = 0`), the tier is
easy / moderate / hard exactly on score ≤ 40 / (40, 80] / > 80, and `sa`
matches the claimed all-starters maximum burial depth whenever a non-empty
solution path is supplied (on duplicate-free columns); without one, only the
face-up region is scanned (see the counterexample). -/
theorem claim_C9_difficulty_formula (st : GameState) (m n de t : Nat)
    (sp : Option (List Move)) :
    (DifficultyAnalyzer.analyze_solution st m n de t sp).branching_factor
        = (if m = 0 then 0 else (n : ℚ) / (m : ℚ)) ∧
    (DifficultyAnalyzer.analyze_solution st m n de t sp).difficulty_score
        = (0.3 : ℚ) * (m : ℚ) + 2 * (de : ℚ) +
          20 * (3 - min
            (DifficultyAnalyzer.analyze_solution st m n de t
              sp).branching_factor 3) +
          5 * ((DifficultyAnalyzer.analyze_solution st m n de t
              sp).starter_accessibility : ℚ) ∧
    ((DifficultyAnalyzer.analyze_solution st m n de t sp).recommended_tier
        = "easy" ↔
      (DifficultyAnalyzer.analyze_solution st m n de t sp).difficulty_score
        ≤ 40) ∧
    ((DifficultyAnalyzer.analyze_solution st m n de t sp).recommended_tier
        = "moderate" ↔
      (40 < (DifficultyAnalyzer.analyze_solution st m n de t
          sp).difficulty_score ∧
        (DifficultyAnalyzer.analyze_solution st m n de t
          sp).difficulty_score ≤ 80)) ∧
    ((DifficultyAnalyzer.analyze_solution st m n de t sp).recommended_tier
        = "hard" ↔
      80 < (DifficultyAnalyzer.analyze_solution st m n de t
        sp).difficulty_score) ∧
    (∀ p, sp = some p → p ≠ [] → (∀ i : Fin 7, (st.tableau i).Nodup) →
      (DifficultyAnalyzer.analyze_solution st m n de t
        sp).starter_accessibility = spec_starter_accessibility st) := by
  refine ⟨?_, ?_, ?_, ?_, ?_, ?_⟩
  · simp [DifficultyAnalyzer.analyze_solution,
      DifficultyAnalyzer.calculate_branching_factor]
  · simp only [DifficultyAnalyzer.analyze_solution,
      DifficultyAnalyzer.calculate_difficulty_score]
    ring
  · exact (determine_tier_iff _).1
  · exact (determine_tier_iff _).2.1
  · exact (determine_tier_iff _).2.2
  · intro p hp hne hnd
    subst hp
    simp only [DifficultyAnalyzer.analyze_solution,
      List.isEmpty_iff, if_neg hne]
    exact analyze_starter_eq_spec st hnd p

/-- C9 witness: the formula theorem applied to the concrete divergence
state with a non-empty solution path, recovering the spec-worded starter
accessibility. -/
theorem claim_C9_difficulty_formula_witness :
    (DifficultyAnalyzer.analyze_solution c9state 10 30 2 0
      (some [⟨.draw_stock, .stock, .waste, []⟩])).starter_accessibility =
      spec_starter_accessibility c9state :=
  (claim_C9_difficulty_formula c9state 10 30 2 0
      (some [⟨.draw_stock, .stock, .waste, []⟩])).2.2.2.2.2
    [⟨.draw_stock, .stock, .waste, []⟩] rfl (by decide) (by decide)

/-- C9 counterexample: called without a solution path on a state whose only
starter is face-down and buried, `analyze_solution` does not compute the
claimed formula value (the claimed starter accessibility is 1, the code
scans only the face-up region and finds 0). -/
theorem claim_C9_score_counterexample :
    (DifficultyAnalyzer.analyze_solution c9state 10 30 2 0
        none).difficulty_score ≠
      (0.3 : ℚ) * 10 + 2 * 2 + 20 * (3 - min ((30 : ℚ) / 10) 3) +
        5 * (spec_starter_accessibility c9state : ℚ) := by
  have hest : DifficultyAnalyzer._estimate_starter_accessibility c9state = 0 := by
    decide
  have hspec : spec_starter_accessibility c9state = 1 := by decide
  have h3 : min ((30 : ℚ) / 10) 3 = 3 := by norm_num
  simp only [DifficultyAnalyzer.analyze_solution, hest, hspec,
    DifficultyAnalyzer.calculate_difficulty_score,
    DifficultyAnalyzer.calculate_branching_factor, h3]
  norm_num

/-- No card prints as the sentinel string `"empty"`. -/
theorem card_str_ne_empty (c : Card) : c.str ≠ "empty" := by
  rcases c with ⟨r, su⟩
  cases r <;> cases su <;> decide

/-- `str(card)` determines the card. -/
theorem card_str_injective (c1 c2 : Card) (h : c1.str = c2.str) : c1 = c2 := by
  revert h
  revert c1 c2
  decide

/-- C5 (amended).  The fingerprint is deterministic: it is a function of
the tableau, stock, waste and foundations alone, so independently
constructed states with identical zone contents fingerprint identically.
It discriminates exactly the encoded components: equal fingerprints force
equal tableau strings, equal stock front cards, equal waste top cards and
equal foundation totals — but nothing more (see the counterexample). -/
theorem claim_C5_fingerprint_contract :
    (∀ s1 s2 : GameState,
      s1.tableau = s2.tableau → s1.stock = s2.stock → s1.waste = s2.waste →
      s1.foundations = s2.foundations →
      get_fingerprint s1 = get_fingerprint s2) ∧
    (∀ s1 s2 : GameState, get_fingerprint s1 = get_fingerprint s2 →
      tableau_str s1 = tableau_str s2 ∧
      s1.stock.head? = s2.stock.head? ∧
      s1.waste.getLast? = s2.waste.getLast? ∧
      foundation_count s1 = foundation_count s2) := by
  constructor
  · intro s1 s2 h1 h2 h3 h4
    simp [get_fingerprint, tableau_str, foundation_count, h1, h2, h3, h4]
  · intro s1 s2 h
    unfold get_fingerprint at h
    have ht := congrArg (fun q : Fingerprint => q.1) h
    have hs := congrArg (fun q : Fingerprint => q.2.1) h
    have hw := congrArg (fun q : Fingerprint => q.2.2.1) h
    have hf := congrArg (fun q : Fingerprint => q.2.2.2) h
    simp only at ht hs hw hf
    refine ⟨ht, ?_, ?_, hf⟩
    · revert hs
      cases h1 : s1.stock.head? with
      | none =>
        cases h2 : s2.stock.head? with
        | none => intro _; rfl
        | some c => intro hs; exact absurd hs.symm (card_str_ne_empty c)
      | some c1 =>
        cases h2 : s2.stock.head? with
        | none => intro hs; exact absurd hs (card_str_ne_empty c1)
        | some c2 => intro hs; rw [card_str_injective c1 c2 hs]
    · revert hw
      cases h1 : s1.waste.getLast? with
      | none =>
        cases h2 : s2.waste.getLast? with
        | none => intro _; rfl
        | some c => intro hw; exact absurd hw.symm (card_str_ne_empty c)
      | some c1 =>
        cases h2 : s2.waste.getLast? with
        | none => intro hw; exact absurd hw (card_str_ne_empty c1)
        | some c2 => intro hw; rw [card_str_injective c1 c2 hw]

/-- C5 witness: two states that differ in metadata and pocket availability
but agree on all zones fingerprint identically. -/
theorem claim_C5_fingerprint_contract_witness :
    get_fingerprint c5stateA = get_fingerprint c5stateC :=
  claim_C5_fingerprint_contract.1 c5stateA c5stateC rfl rfl rfl rfl

/-- C5 counterexample: two distinct valid 52-card states — the same deck in
the waste with the two bottom-most cards swapped — receive identical
fingerprints, refuting the claim that any difference in a card's position
changes the fingerprint. -/
theorem claim_C5_counterexample :
    c5stateA ≠ c5stateB ∧
    get_fingerprint c5stateA = get_fingerprint c5stateB := by
  constructor
  · intro h
    have hw := congrArg GameState.waste h
    have : fullDeckList = ⟨.R2, .h⟩ :: ⟨.RA, .h⟩ :: fullDeckList.drop 2 := hw
    exact absurd this (by decide)
  · rfl

/-- C4.  Reveal bookkeeping at the failing input: removing the 7 of hearts
from a column that still keeps a face-up card (face-up count 2 of 3 cards,
one face-down card) nevertheless decrements the face-down count to 0 and
leaves the face-up count at 2 on a 2-card column — so a face-down card was
"revealed" although the removed card was not the column's last face-up
card, contradicting the claimed precise reveal condition and the
face-up-cards-are-the-topmost-N consistency. -/
theorem claim_C4_reveal_bug :
    c4move ∈ MoveGenerator.generate_all_moves c4state ∧
    c4state.column_state.faceUpCounts 0 = 2 ∧
    c4state.column_state.faceDownCounts 0 = 1 ∧
    (c4state.tableau 0).length = 3 ∧
    ∃ s2, Solver._apply_move c4state c4move = some s2 ∧
      s2.column_state.faceDownCounts 0 = 0 ∧
      s2.column_state.faceUpCounts 0 = 2 ∧
      (s2.tableau 0).length = 2 := by
  refine ⟨by decide, rfl, rfl, rfl, ?_⟩
  exact ⟨_, rfl, rfl, rfl, rfl⟩

/-- Updating one tableau column exchanges exactly that column's cards in
the tableau multiset. -/
theorem tabMultiset_update (t : Fin 7 → List Card) (i : Fin 7)
    (new : List Card) :
    tabMultiset (Function.update t i new) + (t i : Multiset Card) =
      tabMultiset t + (new : Multiset Card) := by
  unfold tabMultiset
  simp only [Function.apply_update (fun (_ : Fin 7) (l : List Card) => (l : Multiset Card)) t]
  rw [Finset.sum_update_of_mem (Finset.mem_univ i),
    Finset.sdiff_singleton_eq_erase,
    ← Finset.add_sum_erase Finset.univ (fun j => ((t j : Multiset Card)))
      (Finset.mem_univ i)]
  abel

/-- Updating one foundation pile exchanges exactly that pile's cards in the
foundations multiset. -/
theorem foundationsMultiset_update (f : FoundationFam → Suit → List Card)
    (ft : FoundationFam) (su : Suit) (new : List Card) :
    foundationsMultiset (Solver.setFoundation f ft su new) +
        (f ft su : Multiset Card) =
      foundationsMultiset f + (new : Multiset Card) := by
  unfold foundationsMultiset Solver.setFoundation
  simp only [Function.apply_update
    (fun (_ : FoundationFam) (g : Suit → List Card) =>
      ∑ su2 : Suit, (g su2 : Multiset Card)) f]
  rw [Finset.sum_update_of_mem (Finset.mem_univ ft),
    Finset.sdiff_singleton_eq_erase,
    ← Finset.add_sum_erase Finset.univ
      (fun x => ∑ su2 : Suit, (f x su2 : Multiset Card)) (Finset.mem_univ ft)]
  simp only [Function.apply_update (fun (_ : Suit) (l : List Card) => (l : Multiset Card)) (f ft)]
  rw [Finset.sum_update_of_mem (Finset.mem_univ su),
    Finset.sdiff_singleton_eq_erase,
    ← Finset.add_sum_erase Finset.univ
      (fun x => (f ft x : Multiset Card)) (Finset.mem_univ su)]
  abel

/-- Revealing a face-down card changes only the column bookkeeping. -/
theorem reveal_tableau (s : GameState) (i : Fin 7) :
    (Solver._reveal_card_if_needed s i).tableau = s.tableau := by
  simp only [Solver._reveal_card_if_needed]
  split <;> rfl

/-- Revealing leaves the stock untouched. -/
theorem reveal_stock (s : GameState) (i : Fin 7) :
    (Solver._reveal_card_if_needed s i).stock = s.stock := by
  simp only [Solver._reveal_card_if_needed]
  split <;> rfl

/-- Revealing leaves the waste untouched. -/
theorem reveal_waste (s : GameState) (i : Fin 7) :
    (Solver._reveal_card_if_needed s i).waste = s.waste := by
  simp only [Solver._reveal_card_if_needed]
  split <;> rfl

/-- Revealing leaves pocket 1 untouched. -/
theorem reveal_pocket1 (s : GameState) (i : Fin 7) :
    (Solver._reveal_card_if_needed s i).pocket1 = s.pocket1 := by
  simp only [Solver._reveal_card_if_needed]
  split <;> rfl

/-- Revealing leaves pocket 2 untouched. -/
theorem reveal_pocket2 (s : GameState) (i : Fin 7) :
    (Solver._reveal_card_if_needed s i).pocket2 = s.pocket2 := by
  simp only [Solver._reveal_card_if_needed]
  split <;> rfl

/-- Revealing leaves the foundations untouched. -/
theorem reveal_foundations (s : GameState) (i : Fin 7) :
    (Solver._reveal_card_if_needed s i).foundations = s.foundations := by
  simp only [Solver._reveal_card_if_needed]
  split <;> rfl

/-- Revealing a face-down card does not change the card multiset. -/
theorem reveal_cardMultiset (s : GameState) (i : Fin 7) :
    cardMultiset (Solver._reveal_card_if_needed s i) = cardMultiset s := by
  unfold cardMultiset
  rw [reveal_tableau, reveal_stock, reveal_waste, reveal_pocket1,
    reveal_pocket2, reveal_foundations]

/-- The guarded per-card pop of `_apply_tableau_move` is a `take` of all
but the last `n` elements. -/
theorem popPerCard_eq_take :
    ∀ (n : Nat) (col : List Card),
      Solver.popPerCard col n = col.take (col.length - n) := by
  intro n
  induction n with
  | zero => intro col; simp [Solver.popPerCard]
  | succ k ih =>
    intro col
    rw [Solver.popPerCard, ih, List.dropLast_eq_take, List.take_take,
      List.length_take]
    congr 1
    omega

/-- Splitting a list at its last element, in multiset form. -/
theorem coe_dropLast_add_last (l : List Card) (c : Card)
    (h : l.getLast? = some c) :
    (l.dropLast : Multiset Card) + {c} = ↑l := by
  have hm : c ∈ l.getLast? := by rw [h]; rfl
  rw [← Multiset.coe_singleton, Multiset.coe_add,
    List.dropLast_append_getLast? c hm]

/-- Appending one card to a foundation pile adds exactly that card to the
foundations multiset. -/
theorem foundationsMultiset_push (f : FoundationFam → Suit → List Card)
    (ft : FoundationFam) (su : Suit) (c : Card) :
    foundationsMultiset (Solver.setFoundation f ft su (f ft su ++ [c])) =
      foundationsMultiset f + {c} := by
  have h := foundationsMultiset_update f ft su (f ft su ++ [c])
  have h2 : ((f ft su ++ [c] : List Card) : Multiset Card) =
      ↑(f ft su) + {c} := by
    rw [← Multiset.coe_singleton, Multiset.coe_add]
  rw [h2] at h
  apply add_right_cancel (b := (f ft su : Multiset Card))
  calc foundationsMultiset (Solver.setFoundation f ft su (f ft su ++ [c])) +
        (f ft su : Multiset Card)
      = foundationsMultiset f + (↑(f ft su) + {c}) := h
    _ = foundationsMultiset f + {c} + ↑(f ft su) := by abel

/-- Replacing a column by a prefix of itself removes exactly the dropped
suffix from the tableau multiset. -/
theorem tabMultiset_update_split (t : Fin 7 → List Card) (i : Fin 7)
    (new : List Card) (d : Multiset Card)
    (h : ((t i : List Card) : Multiset Card) = ↑new + d) :
    tabMultiset (Function.update t i new) + d = tabMultiset t := by
  apply add_right_cancel (b := (new : Multiset Card))
  have hu := tabMultiset_update t i new
  rw [h] at hu
  calc tabMultiset (Function.update t i new) + d + (new : Multiset Card)
      = tabMultiset (Function.update t i new) + (↑new + d) := by abel
    _ = tabMultiset t + ↑new := hu

/-- Appending cards to a column adds exactly those cards to the tableau
multiset. -/
theorem tabMultiset_append (t : Fin 7 → List Card) (i : Fin 7)
    (cards : List Card) :
    tabMultiset (Function.update t i (t i ++ cards)) =
      tabMultiset t + ↑cards := by
  apply add_right_cancel (b := (t i : Multiset Card))
  have hu := tabMultiset_update t i (t i ++ cards)
  rw [← Multiset.coe_add] at hu
  calc tabMultiset (Function.update t i (t i ++ cards)) +
        (t i : Multiset Card)
      = tabMultiset t + (↑(t i) + ↑cards) := hu
    _ = tabMultiset t + ↑cards + ↑(t i) := by abel

/-- Conservation for a generated foundation move out of the waste. -/
theorem conserve_found_waste (s : GameState) (card : Card)
    (ft : FoundationFam) (su : Suit)
    (h : s.waste.getLast? = some card) (s2 : GameState)
    (happ : Solver._apply_foundation_move s
      ⟨.to_foundation, .waste, .foundation ft su, [card]⟩ = some s2) :
    cardMultiset s2 = cardMultiset s := by
  simp only [Solver._apply_foundation_move, List.head?, if_pos h,
    Option.some.injEq] at happ
  subst happ
  unfold cardMultiset
  simp only [foundationsMultiset_push]
  rw [← coe_dropLast_add_last s.waste card h]
  abel

/-- Conservation for a generated foundation move out of an occupied
pocket. -/
theorem conserve_found_pocket (s : GameState) (card : Card)
    (ft : FoundationFam) (su : Suit) (n : Nat)
    (h : (n = 1 ∧ s.pocket1 = Pocket.held card) ∨
      (n = 2 ∧ s.pocket2 = Pocket.held card)) (s2 : GameState)
    (happ : Solver._apply_foundation_move s
      ⟨.to_foundation, .pocket n, .foundation ft su, [card]⟩ = some s2) :
    cardMultiset s2 = cardMultiset s := by
  simp only [Solver._apply_foundation_move, List.head?] at happ
  split at happ
  case isTrue hcond =>
    simp only [Option.some.injEq] at happ
    subst happ
    unfold cardMultiset
    simp only [foundationsMultiset_push, hcond.2, pocketMultiset]
    abel
  case isFalse hcond1 =>
    split at happ
    case isTrue hcond2 =>
      simp only [Option.some.injEq] at happ
      subst happ
      unfold cardMultiset
      simp only [foundationsMultiset_push, hcond2.2, pocketMultiset]
      abel
    case isFalse hcond2 =>
      rcases h with hc | hc
      · exact absurd hc hcond1
      · exact absurd hc hcond2

/-- Conservation for a generated foundation move off the top of a tableau
column. -/
theorem conserve_found_tableau (s : GameState) (card : Card)
    (ft : FoundationFam) (su : Suit) (i : Fin 7)
    (h : (s.tableau i).getLast? = some card) (s2 : GameState)
    (happ : Solver._apply_foundation_move s
      ⟨.to_foundation, .tableau i, .foundation ft su, [card]⟩ = some s2) :
    cardMultiset s2 = cardMultiset s := by
  simp only [Solver._apply_foundation_move, List.head?, if_pos h,
    Option.some.injEq] at happ
  subst happ
  unfold cardMultiset
  simp only [reveal_tableau, reveal_stock, reveal_waste, reveal_pocket1,
    reveal_pocket2, reveal_foundations, foundationsMultiset_push]
  have htab := tabMultiset_update_split s.tableau i ((s.tableau i).dropLast)
    {card} (coe_dropLast_add_last (s.tableau i) card h).symm
  rw [← htab]
  abel

/-- Conservation for the stock draw (unconditional: an empty stock is a
no-op). -/
theorem conserve_draw (s : GameState) :
    cardMultiset (Solver._apply_draw_stock s) = cardMultiset s := by
  unfold Solver._apply_draw_stock
  rcases hs : s.stock with _ | ⟨c, rest⟩
  · rfl
  · unfold cardMultiset
    simp only [hs]
    rw [← Multiset.coe_add s.waste [c],
      show ((c :: rest : List Card) : Multiset Card) = ↑[c] + ↑rest from rfl]
    abel

/-- Conservation for the waste recycle when the waste holds more than one
card (the only case the generator emits). -/
theorem conserve_recycle (s : GameState) (h : 1 < s.waste.length) :
    cardMultiset (Solver._apply_recycle_waste s) = cardMultiset s := by
  have hne : s.waste ≠ [] := by
    intro he; rw [he] at h; exact absurd h (by decide)
  rcases hlast : s.waste.getLast? with _ | top
  · exact absurd (List.getLast?_eq_none_iff.mp hlast) hne
  · unfold Solver._apply_recycle_waste
    rw [hlast]
    simp only [if_pos h]
    unfold cardMultiset
    rw [← Multiset.coe_add]
    rw [← coe_dropLast_add_last s.waste top hlast]
    rw [show (([top] : List Card) : Multiset Card) = {top} from rfl]
    abel

/-- Conservation for a generated tableau-to-tableau move: the moved cards
are exactly the suffix the source column loses. -/
theorem conserve_tab_tab (s : GameState) (src tgt : Fin 7)
    (cards : List Card)
    (hsplit : s.tableau src =
      Solver.popPerCard (s.tableau src) cards.length ++ cards)
    (s2 : GameState)
    (happ : Solver._apply_tableau_move s
      ⟨.to_tableau, .tableau src, .tableau tgt, cards⟩ = some s2) :
    cardMultiset s2 = cardMultiset s := by
  have hcoe : ((s.tableau src : List Card) : Multiset Card) =
      ↑(Solver.popPerCard (s.tableau src) cards.length) + ↑cards := by
    conv_lhs => rw [hsplit]
    rw [← Multiset.coe_add]
  have hpop := tabMultiset_update_split s.tableau src
    (Solver.popPerCard (s.tableau src) cards.length) ↑cards hcoe
  simp only [Solver._apply_tableau_move] at happ
  split at happ
  · split at happ
    · exact absurd happ (by simp)
    · simp only [Option.some.injEq] at happ
      subst happ
      unfold cardMultiset
      simp only [reveal_tableau, reveal_stock, reveal_waste, reveal_pocket1,
        reveal_pocket2, reveal_foundations]
      rw [tabMultiset_append, ← hpop]
  · simp only [Option.some.injEq] at happ
    subst happ
    unfold cardMultiset
    simp only [reveal_tableau, reveal_stock, reveal_waste, reveal_pocket1,
      reveal_pocket2, reveal_foundations]
    rw [tabMultiset_append, ← hpop]

/-- Conservation for a generated waste-to-tableau move. -/
theorem conserve_tab_waste (s : GameState) (tgt : Fin 7) (wc : Card)
    (h : s.waste.getLast? = some wc) (s2 : GameState)
    (happ : Solver._apply_tableau_move s
      ⟨.to_tableau, .waste, .tableau tgt, [wc]⟩ = some s2) :
    cardMultiset s2 = cardMultiset s := by
  have hne : ¬s.waste.isEmpty = true := by
    rw [List.isEmpty_iff]
    intro he
    rw [he] at h
    cases h
  simp only [Solver._apply_tableau_move, if_neg hne] at happ
  split at happ
  · split at happ
    · exact absurd happ (by simp)
    · simp only [Option.some.injEq] at happ
      subst happ
      unfold cardMultiset
      rw [tabMultiset_append, ← coe_dropLast_add_last s.waste wc h,
        show (([wc] : List Card) : Multiset Card) = {wc} from rfl]
      abel
  · simp only [Option.some.injEq] at happ
    subst happ
    unfold cardMultiset
    rw [tabMultiset_append, ← coe_dropLast_add_last s.waste wc h,
      show (([wc] : List Card) : Multiset Card) = {wc} from rfl]
    abel

/-- Conservation for a generated waste-to-pocket move (only emitted when
the pocket slot is empty). -/
theorem conserve_to_pocket (s : GameState) (n : Nat) (wc : Card)
    (hw : s.waste.getLast? = some wc)
    (h : (n = 1 ∧ s.pocket1 = Pocket.empty) ∨
      (n = 2 ∧ s.pocket2 = Pocket.empty)) (s2 : GameState)
    (happ : Solver._apply_to_pocket_move s
      ⟨.to_pocket, .waste, .pocket n, [wc]⟩ = some s2) :
    cardMultiset s2 = cardMultiset s := by
  have hne : ¬s.waste.isEmpty = true := by
    rw [List.isEmpty_iff]
    intro he
    rw [he] at hw
    cases hw
  simp only [Solver._apply_to_pocket_move, List.head?, if_neg hne] at happ
  split at happ
  case isTrue hn =>
    have hp1 : s.pocket1 = Pocket.empty := by
      rcases h with ⟨_, hp⟩ | ⟨hn2, _⟩
      · exact hp
      · rw [hn] at hn2; cases hn2
    simp only [Option.some.injEq] at happ
    subst happ
    unfold cardMultiset
    simp only [hp1, pocketMultiset]
    rw [← coe_dropLast_add_last s.waste wc hw]
    abel
  case isFalse hn1 =>
    split at happ
    case isTrue hn =>
      have hp2 : s.pocket2 = Pocket.empty := by
        rcases h with ⟨hn2, _⟩ | ⟨_, hp⟩
        · rw [hn] at hn2; cases hn2
        · exact hp
      simp only [Option.some.injEq] at happ
      subst happ
      unfold cardMultiset
      simp only [hp2, pocketMultiset]
      rw [← coe_dropLast_add_last s.waste wc hw]
      abel
    case isFalse hn2 =>
      rcases h with ⟨hn, _⟩ | ⟨hn, _⟩
      · exact absurd hn hn1
      · exact absurd hn hn2

/-- Conservation for a generated pocket-to-tableau move. -/
theorem conserve_from_pocket (s : GameState) (n : Nat) (c : Card)
    (tgt : Fin 7)
    (h : (n = 1 ∧ s.pocket1 = Pocket.held c) ∨
      (n = 2 ∧ s.pocket2 = Pocket.held c)) (s2 : GameState)
    (happ : Solver._apply_from_pocket_move s
      ⟨.from_pocket, .pocket n, .tableau tgt, [c]⟩ = some s2) :
    cardMultiset s2 = cardMultiset s := by
  simp only [Solver._apply_from_pocket_move, List.head?] at happ
  split at happ
  case isTrue hcond =>
    split at happ <;>
    · simp only [Option.some.injEq] at happ
      subst happ
      unfold cardMultiset
      simp only [hcond.2, pocketMultiset]
      rw [tabMultiset_append,
        show (([c] : List Card) : Multiset Card) = {c} from rfl]
      abel
  case isFalse hcond1 =>
    split at happ
    case isTrue hcond =>
      split at happ <;>
      · simp only [Option.some.injEq] at happ
        subst happ
        unfold cardMultiset
        simp only [hcond.2, pocketMultiset]
        rw [tabMultiset_append,
          show (([c] : List Card) : Multiset Card) = {c} from rfl]
        abel
    case isFalse hcond2 =>
      rcases h with hc | hc
      · exact absurd hc hcond1
      · exact absurd hc hcond2

/-- The last element of a non-empty Python suffix slice is the last element
of the whole list. -/
theorem getLast?_pySuffix (col : List Card) (n : Nat) (c : Card)
    (h : (MoveGenerator.pySuffix col n).getLast? = some c) :
    col.getLast? = some c := by
  unfold MoveGenerator.pySuffix at h
  have hne : col.drop (col.length - n) ≠ [] := by
    intro he
    rw [he] at h
    cases h
  conv_lhs => rw [← List.take_append_drop (col.length - n) col]
  rw [List.getLast?_append_of_ne_nil _ hne]
  exact h

/-- A suffix of a suffix is a suffix: the sequence enumerated by the
tableau-move generator is the last `L` cards of the column. -/
theorem pySuffix_pySuffix (col : List Card) (fu L : Nat)
    (hL : L ≤ (MoveGenerator.pySuffix col fu).length) :
    MoveGenerator.pySuffix (MoveGenerator.pySuffix col fu) L =
      col.drop (col.length - L) ∧
    (MoveGenerator.pySuffix (MoveGenerator.pySuffix col fu) L).length = L := by
  unfold MoveGenerator.pySuffix at hL ⊢
  rw [List.length_drop] at hL
  constructor
  · rw [List.length_drop, List.drop_drop]
    congr 1
    omega
  · rw [List.length_drop, List.length_drop]
    omega

/-- The source column of a generated tableau sequence move splits as the
popped prefix followed by the moved cards. -/
theorem generated_sequence_split (col : List Card) (fu L : Nat)
    (hL : L ≤ (MoveGenerator.pySuffix col fu).length) :
    col = Solver.popPerCard col
        (MoveGenerator.pySuffix (MoveGenerator.pySuffix col fu) L).length ++
      MoveGenerator.pySuffix (MoveGenerator.pySuffix col fu) L := by
  obtain ⟨hseq, hlen⟩ := pySuffix_pySuffix col fu L hL
  rw [hlen, hseq, popPerCard_eq_take]
  exact (List.take_append_drop _ _).symm
theorem shape_found_targets (s : GameState) (card : Card) (src : MoveSource)
    (m : Move) (hm : m ∈ MoveGenerator.foundation_targets s card src) :
    ∃ ft su, m = ⟨.to_foundation, src, .foundation ft su, [card]⟩ := by
  unfold MoveGenerator.foundation_targets at hm
  simp only [List.mem_flatMap, List.mem_map, List.mem_filter] at hm
  obtain ⟨ft, _, su, _, rfl⟩ := hm
  exact ⟨ft, su, rfl⟩

theorem shape_foundation (s : GameState) (m : Move)
    (hm : m ∈ MoveGenerator._generate_foundation_moves s) :
    (∃ ft su card, m = ⟨.to_foundation, .waste, .foundation ft su, [card]⟩ ∧
      s.waste.getLast? = some card) ∨
    (∃ ft su card n,
      m = ⟨.to_foundation, .pocket n, .foundation ft su, [card]⟩ ∧
      ((n = 1 ∧ s.pocket1 = Pocket.held card) ∨
       (n = 2 ∧ s.pocket2 = Pocket.held card))) ∨
    (∃ ft su card i,
      m = ⟨.to_foundation, .tableau i, .foundation ft su, [card]⟩ ∧
      (s.tableau i).getLast? = some card) := by
  unfold MoveGenerator._generate_foundation_moves at hm
  rcases List.mem_append.mp hm with hm1 | hm3
  rcases List.mem_append.mp hm1 with hmw | hmp
  · -- waste part
    left
    rcases hw : s.waste.getLast? with _ | wc
    · rw [hw] at hmw; cases hmw
    · rw [hw] at hmw
      obtain ⟨ft, su, rfl⟩ := shape_found_targets s wc .waste m hmw
      exact ⟨ft, su, wc, rfl, rfl⟩
  · -- pocket part
    right; left
    simp only [MoveGenerator.pocketPairs, List.flatMap_cons, List.flatMap_nil,
      List.append_nil, List.mem_append] at hmp
    rcases hmp with hp | hp
    · rcases h1 : s.pocket1 with c | _ | _ <;> rw [h1] at hp
      · obtain ⟨ft, su, rfl⟩ := shape_found_targets s c (.pocket 1) m hp
        exact ⟨ft, su, c, 1, rfl, Or.inl ⟨rfl, rfl⟩⟩
      · cases hp
      · cases hp
    · rcases h2 : s.pocket2 with c | _ | _ <;> rw [h2] at hp
      · obtain ⟨ft, su, rfl⟩ := shape_found_targets s c (.pocket 2) m hp
        exact ⟨ft, su, c, 2, rfl, Or.inr ⟨rfl, rfl⟩⟩
      · cases hp
      · cases hp
  · -- tableau part
    right; right
    simp only [List.mem_flatMap] at hm3
    obtain ⟨i, _, hmi⟩ := hm3
    by_cases hemp : (s.tableau i).isEmpty
    · rw [if_pos hemp] at hmi; cases hmi
    · rw [if_neg hemp] at hmi
      by_cases hfu : s.column_state.faceUpCounts i > 0
      · rw [if_pos hfu] at hmi
        rcases hl : (MoveGenerator.pySuffix (s.tableau i)
            (s.column_state.faceUpCounts i)).getLast? with _ | top
        · rw [hl] at hmi; cases hmi
        · rw [hl] at hmi
          obtain ⟨ft, su, rfl⟩ := shape_found_targets s top (.tableau i) m hmi
          exact ⟨ft, su, top, i, rfl, getLast?_pySuffix _ _ _ hl⟩
      · rw [if_neg hfu] at hmi
        cases hmi
theorem shape_tableau (s : GameState) (m : Move)
    (hm : m ∈ MoveGenerator._generate_tableau_moves s) :
    (∃ src tgt cards, m = ⟨.to_tableau, .tableau src, .tableau tgt, cards⟩ ∧
      s.tableau src =
        Solver.popPerCard (s.tableau src) cards.length ++ cards) ∨
    (∃ tgt wc, m = ⟨.to_tableau, .waste, .tableau tgt, [wc]⟩ ∧
      s.waste.getLast? = some wc) := by
  unfold MoveGenerator._generate_tableau_moves at hm
  rcases List.mem_append.mp hm with hmt | hmw
  · left
    simp only [List.mem_flatMap] at hmt
    obtain ⟨src, _, hmi⟩ := hmt
    by_cases hemp : (s.tableau src).isEmpty
    · rw [if_pos hemp] at hmi; cases hmi
    · rw [if_neg hemp] at hmi
      by_cases hfu : s.column_state.faceUpCounts src > 0
      · rw [if_pos hfu] at hmi
        by_cases hfe : (MoveGenerator.pySuffix (s.tableau src)
            (s.column_state.faceUpCounts src)).isEmpty
        · rw [if_pos hfe] at hmi; cases hmi
        · rw [if_neg hfe] at hmi
          simp only [List.mem_flatMap, List.mem_range, List.mem_filter,
            List.mem_ite_nil_right, List.mem_singleton] at hmi
          obtain ⟨j, hj, tgt, _, hcan, rfl⟩ := hmi
          refine ⟨src, tgt, _, rfl, ?_⟩
          exact generated_sequence_split _ _ (j + 1) (by omega)
      · rw [if_neg hfu] at hmi
        simp at hmi
  · right
    rcases hw : s.waste.getLast? with _ | wc
    · rw [hw] at hmw; cases hmw
    · rw [hw] at hmw
      simp only [List.mem_flatMap, List.mem_ite_nil_right,
        List.mem_singleton] at hmw
      obtain ⟨tgt, _, hcan, rfl⟩ := hmw
      exact ⟨tgt, wc, rfl, rfl⟩
theorem shape_pocket (s : GameState) (m : Move)
    (hm : m ∈ MoveGenerator._generate_pocket_moves s) :
    (∃ n wc, m = ⟨.to_pocket, .waste, .pocket n, [wc]⟩ ∧
      s.waste.getLast? = some wc ∧
      ((n = 1 ∧ s.pocket1 = Pocket.empty) ∨
       (n = 2 ∧ s.pocket2 = Pocket.empty))) ∨
    (∃ n c tgt, m = ⟨.from_pocket, .pocket n, .tableau tgt, [c]⟩ ∧
      ((n = 1 ∧ s.pocket1 = Pocket.held c) ∨
       (n = 2 ∧ s.pocket2 = Pocket.held c))) := by
  unfold MoveGenerator._generate_pocket_moves at hm
  rcases List.mem_append.mp hm with hmw | hmp
  · left
    rcases hw : s.waste.getLast? with _ | wc
    · rw [hw] at hmw; cases hmw
    · rw [hw] at hmw
      rcases List.mem_append.mp hmw with hp | hp
      · by_cases h1 : s.pocket1 = Pocket.empty
        · rw [if_pos h1] at hp
          rw [List.mem_singleton] at hp
          subst hp
          exact ⟨1, wc, rfl, rfl, Or.inl ⟨rfl, h1⟩⟩
        · rw [if_neg h1] at hp; cases hp
      · by_cases h2 : s.pocket2 = Pocket.empty
        · rw [if_pos h2] at hp
          rw [List.mem_singleton] at hp
          subst hp
          exact ⟨2, wc, rfl, rfl, Or.inr ⟨rfl, h2⟩⟩
        · rw [if_neg h2] at hp; cases hp
  · right
    simp only [MoveGenerator.pocketPairs, List.flatMap_cons, List.flatMap_nil,
      List.append_nil, List.mem_append] at hmp
    rcases hmp with hp | hp
    · rcases h1 : s.pocket1 with c | _ | _ <;> rw [h1] at hp
      · simp only [List.mem_flatMap, List.mem_ite_nil_right,
          List.mem_singleton] at hp
        obtain ⟨tgt, _, hcan, rfl⟩ := hp
        exact ⟨1, c, tgt, rfl, Or.inl ⟨rfl, rfl⟩⟩
      · cases hp
      · cases hp
    · rcases h2 : s.pocket2 with c | _ | _ <;> rw [h2] at hp
      · simp only [List.mem_flatMap, List.mem_ite_nil_right,
          List.mem_singleton] at hp
        obtain ⟨tgt, _, hcan, rfl⟩ := hp
        exact ⟨2, c, tgt, rfl, Or.inr ⟨rfl, rfl⟩⟩
      · cases hp
      · cases hp

theorem shape_stock (s : GameState) (m : Move)
    (hm : m ∈ MoveGenerator._generate_stock_moves s) :
    (m = ⟨.draw_stock, .stock, .waste, []⟩) ∨
    (m = ⟨.recycle_waste, .waste, .stock, []⟩ ∧ 1 < s.waste.length) := by
  unfold MoveGenerator._generate_stock_moves at hm
  by_cases hs : !s.stock.isEmpty
  · rw [if_pos hs] at hm
    rw [List.mem_singleton] at hm
    exact Or.inl hm
  · rw [if_neg hs] at hm
    by_cases hw : s.waste.length > 1
    · rw [if_pos hw] at hm
      rw [List.mem_singleton] at hm
      exact Or.inr ⟨hm, hw⟩
    · rw [if_neg hw] at hm
      cases hm

/-- Any move produced by the generator, when its application succeeds,
preserves the card multiset. -/
theorem generated_move_conserves (s : GameState) (m : Move)
    (hm : m ∈ MoveGenerator.generate_all_moves s) (s2 : GameState)
    (happ : Solver._apply_move s m = some s2) :
    cardMultiset s2 = cardMultiset s := by
  unfold MoveGenerator.generate_all_moves at hm
  rcases List.mem_append.mp hm with hm1 | hms
  rcases List.mem_append.mp hm1 with hm2 | hmp
  rcases List.mem_append.mp hm2 with hmf | hmt
  · rcases shape_foundation s m hmf with
      ⟨ft, su, card, rfl, h⟩ | ⟨ft, su, card, n, rfl, h⟩ |
      ⟨ft, su, card, i, rfl, h⟩
    · exact conserve_found_waste s card ft su h s2 happ
    · exact conserve_found_pocket s card ft su n h s2 happ
    · exact conserve_found_tableau s card ft su i h s2 happ
  · rcases shape_tableau s m hmt with
      ⟨src, tgt, cards, rfl, h⟩ | ⟨tgt, wc, rfl, h⟩
    · exact conserve_tab_tab s src tgt cards h s2 happ
    · exact conserve_tab_waste s tgt wc h s2 happ
  · rcases shape_pocket s m hmp with
      ⟨n, wc, rfl, hw, h⟩ | ⟨n, c, tgt, rfl, h⟩
    · exact conserve_to_pocket s n wc hw h s2 happ
    · exact conserve_from_pocket s n c tgt h s2 happ
  · rcases shape_stock s m hms with rfl | ⟨rfl, h⟩
    · have hs2 : s2 = Solver._apply_draw_stock s := by
        simp only [Solver._apply_move, Option.some.injEq] at happ
        exact happ.symm
      rw [hs2]
      exact conserve_draw s
    · have hs2 : s2 = Solver._apply_recycle_waste s := by
        simp only [Solver._apply_move, Option.some.injEq] at happ
        exact happ.symm
      rw [hs2]
      exact conserve_recycle s h

/-- C2.  Card conservation: the full deck is the 52 distinct (rank, suit)
pairs; every single generated-and-applied move preserves the multiset of
cards across tableau, stock, waste, pockets and both foundation families;
and along any sequence of generated moves from a state holding exactly the
full deck, every reached state still holds exactly the full deck. -/
theorem claim_C2_card_conservation :
    (fullDeckList.Nodup ∧ fullDeckList.length = 52) ∧
    (∀ (s : GameState) (m : Move), m ∈ MoveGenerator.generate_all_moves s →
      ∀ s2, Solver._apply_move s m = some s2 →
        cardMultiset s2 = cardMultiset s) ∧
    (∀ (ms : List Move) (s0 sf : GameState),
      cardMultiset s0 = ↑fullDeckList → playSeq s0 ms = some sf →
        cardMultiset sf = ↑fullDeckList) := by
  refine ⟨by decide, fun s m hm s2 happ =>
    generated_move_conserves s m hm s2 happ, ?_⟩
  intro ms
  induction ms with
  | nil =>
    intro s0 sf h0 hp
    simp only [playSeq, Option.some.injEq] at hp
    rw [← hp]
    exact h0
  | cons m rest ih =>
    intro s0 sf h0 hp
    rw [playSeq] at hp
    split at hp
    case isTrue hmem =>
      split at hp
      case h_1 s2 hs2 =>
        exact ih s2 sf
          ((generated_move_conserves s0 m hmem s2 hs2).trans h0) hp
      case h_2 => cases hp
    case isFalse => cases hp

/-- C2 witness: the full deck in the waste, one generated recycle move, and
the card multiset before and after. -/
theorem claim_C2_card_conservation_witness :
    cardMultiset c5stateA = ↑fullDeckList ∧
    playSeq c5stateA [⟨.recycle_waste, .waste, .stock, []⟩] =
      some c2afterState ∧
    cardMultiset c2afterState = ↑fullDeckList :=
  ⟨by decide, by decide,
    claim_C2_card_conservation.2.2 [⟨.recycle_waste, .waste, .stock, []⟩]
      c5stateA c2afterState (by decide) (by decide)⟩

/-- Splitting lemma: playing an appended move sequence is the bind of
playing the two parts. -/
theorem playSeq_append (p q : List Move) :
    ∀ s : GameState, playSeq s (p ++ q) =
      (playSeq s p).bind fun t => playSeq t q := by
  induction p with
  | nil => intro s; rfl
  | cons m rest ih =>
    intro s
    rw [List.cons_append, playSeq, playSeq]
    split
    · split
      · exact ih _
      · rfl
    · rfl

/-- Extending a legal play by one generated, successfully applied move. -/
theorem playSeq_snoc (s0 st s2 : GameState) (path : List Move) (m : Move)
    (hp : playSeq s0 path = some st)
    (hm : m ∈ MoveGenerator.generate_all_moves st)
    (ha : Solver._apply_move st m = some s2) :
    playSeq s0 (path ++ [m]) = some s2 := by
  rw [playSeq_append, hp]
  simp only [Option.some_bind]
  rw [playSeq, if_pos hm, ha]
  rfl

/-- The inner move loop is sound: a win it returns is a legal generated-move
sequence reaching a won state, and the queue it extends keeps the queue
invariant. -/
theorem expand_sound (s0 st : GameState) (path : List Move)
    (hpath : playSeq s0 path = some st) :
    ∀ (moves : List Move) (queue : List (GameState × List Move))
      (visited : List Fingerprint) (nodes : Nat),
      (∀ m ∈ moves, m ∈ MoveGenerator.generate_all_moves st) →
      QInv s0 queue →
      (∀ sol nodes2, Solver.expand st path moves queue visited nodes =
          .win sol nodes2 →
        ∃ sf, playSeq s0 sol = some sf ∧ Solver._is_won sf = true) ∧
      (∀ q2 v2 n2, Solver.expand st path moves queue visited nodes =
          .cont q2 v2 n2 → QInv s0 q2) := by
  intro moves
  induction moves with
  | nil =>
    intro queue visited nodes _ hq
    constructor
    · intro sol nodes2 h
      cases h
    · intro q2 v2 n2 h
      cases h
      exact hq
  | cons m rest ih =>
    intro queue visited nodes hgen hq
    rw [Solver.expand]
    rcases ha : Solver._apply_move st m with _ | s2
    · dsimp only
      exact ih queue visited nodes (fun x hx => hgen x (by simp [hx])) hq
    · dsimp only
      by_cases hwon : Solver._is_won s2 = true
      · rw [if_pos hwon]
        constructor
        · intro sol nodes2 h
          cases h
          exact ⟨s2, playSeq_snoc s0 st s2 path m hpath
            (hgen m (by simp)) ha, hwon⟩
        · intro q2 v2 n2 h
          cases h
      · rw [if_neg hwon]
        by_cases hv : get_fingerprint s2 ∈ visited
        · rw [if_pos hv]
          exact ih queue visited nodes (fun x hx => hgen x (by simp [hx])) hq
        · rw [if_neg hv]
          refine ih (queue ++ [(s2, path ++ [m])]) _ _
            (fun x hx => hgen x (by simp [hx])) ?_
          intro e he
          rcases List.mem_append.mp he with he | he
          · exact hq e he
          · rw [List.mem_singleton] at he
            subst he
            exact playSeq_snoc s0 st s2 path m hpath (hgen m (by simp)) ha

/-- The BFS loop is sound: under the queue invariant, a winnable result's
solution is a legal generated-move sequence from the initial state to a
won state. -/
theorem solveLoop_sound (s0 : GameState) (max_nodes : Nat) :
    ∀ (fuel : Nat) (queue : List (GameState × List Move))
      (visited : List Fingerprint) (nodes deadEnds maxDepth : Nat)
      (r : SolverResult),
      QInv s0 queue →
      Solver.solveLoop max_nodes fuel queue visited nodes deadEnds
        maxDepth = some r →
      r.winnable = true →
      ∃ sf, playSeq s0 r.solution = some sf ∧ Solver._is_won sf = true := by
  intro fuel
  induction fuel with
  | zero =>
    intro queue visited nodes de md r _ h _
    cases h
  | succ fuel ih =>
    intro queue visited nodes de md r hq h hw
    rcases queue with _ | ⟨⟨st, path⟩, rest⟩
    · simp only [Solver.solveLoop] at h
      cases h
      cases hw
    · simp only [Solver.solveLoop] at h
      by_cases hb : nodes ≥ max_nodes
      · rw [if_pos hb] at h
        cases h
        cases hw
      · rw [if_neg hb] at h
        by_cases hme : (MoveGenerator.generate_all_moves st).isEmpty = true
        · rw [if_pos hme] at h
          exact ih rest visited nodes (de + 1) _ r
            (fun e he => hq e (List.mem_cons_of_mem _ he)) h hw
        · rw [if_neg hme] at h
          have hpath : playSeq s0 path = some st :=
            hq (st, path) (List.mem_cons_self _ _)
          have hes := expand_sound s0 st path hpath
            (MoveGenerator.generate_all_moves st) rest visited nodes
            (fun m hm => hm)
            (fun e he => hq e (List.mem_cons_of_mem _ he))
          rcases hexp : Solver.expand st path
              (MoveGenerator.generate_all_moves st) rest visited nodes with
            ⟨sol, n2⟩ | ⟨q2, v2, n2⟩
          · rw [hexp] at h
            cases h
            exact hes.1 sol n2 hexp
          · rw [hexp] at h
            exact ih q2 v2 n2 de _ r (hes.2 q2 v2 n2 hexp) h hw

/-- C3 (amended): whenever `solve` returns `winnable = true`, the returned
solution is a legal sequence of generated moves leading from the initial
state to a won state.  The original claim's minimality part is refuted by
`claim_C3_minimality_counterexample`: fingerprint collisions can prune the
shorter line. -/
theorem claim_C3_solution_sound (max_nodes fuel : Nat) (s : GameState)
    (r : SolverResult) (h : Solver.solve max_nodes fuel s = some r)
    (hw : r.winnable = true) :
    ∃ sf, playSeq s r.solution = some sf ∧ Solver._is_won sf = true := by
  rw [Solver.solve] at h
  by_cases hwon : Solver._is_won s = true
  · rw [if_pos hwon] at h
    cases h
    exact ⟨s, rfl, hwon⟩
  · rw [if_neg hwon] at h
    refine solveLoop_sound s max_nodes fuel _ _ 1 0 0 r ?_ h hw
    intro e he
    rw [List.mem_singleton] at he
    subst he
    rfl

/-- C3 witness: the soundness theorem applied to the concrete run of the
solver on `c3state` (node budget 20000, fuel 100), whose result is the
winnable 12-move `c3solution`. -/
theorem claim_C3_solution_sound_witness :
    ∃ sf, playSeq c3state
        (SolverResult.mk true c3solution 24 0 0 12).solution = some sf ∧
      Solver._is_won sf = true :=
  claim_C3_solution_sound 20000 100 c3state ⟨true, c3solution, 24, 0, 0, 12⟩
    (by rfl) rfl

/-- C3 counterexample to minimality: on the 52-card state `c3state` the
solver returns the 12-move `c3solution`, yet the 11-move generated-move
sequence `c3optimal` also wins; the breadth-first search misses it because
at depth 3 the shorter line's state shares its fingerprint with the longer
line's state (they differ only in whether J♥ sits in the waste body or the
stock body, which the fingerprint does not encode). -/
theorem claim_C3_minimality_counterexample :
    Solver.solve 20000 100 c3state =
      some ⟨true, c3solution, 24, 0, 0, 12⟩ ∧
    c3solution.length = 12 ∧
    (playSeq c3state c3optimal).map Solver._is_won = some true ∧
    c3optimal.length = 11 :=
  ⟨by rfl, rfl, by rfl, rfl⟩

/-- A move-closed list of unwon states can never reach a won state: every
legal generated-move sequence from a listed state ends unwon. -/
theorem closure_unwinnable (S : List GameState)
    (hc : closedUnderMoves S = true) (hw : noneWon S = true) :
    ∀ (ms : List Move) (s : GameState), s ∈ S →
      ∀ sf, playSeq s ms = some sf → Solver._is_won sf = false := by
  intro ms
  induction ms with
  | nil =>
    intro s hs sf hsf
    rw [playSeq] at hsf
    cases hsf
    simp only [noneWon, List.all_eq_true] at hw
    simpa using hw s hs
  | cons m rest ih =>
    intro s hs sf hsf
    rw [playSeq] at hsf
    split at hsf
    case isTrue hmem =>
      split at hsf
      case h_1 s2 hs2 =>
        refine ih s2 ?_ sf hsf
        simp only [closedUnderMoves, List.all_eq_true] at hc
        have h2 := hc s hs m hmem
        rw [hs2] at h2
        simpa using h2
      case h_2 => cases hsf
    case isFalse => cases hsf

set_option maxRecDepth 100000 in
/-- C1: refuted.  The frontier-exhausted run on the definitively
unwinnable state `c1x` (budget 20000) and the node-budget-capped run on
the winnable state `c1y` (budget 8) return byte-for-byte identical
`SolverResult`s — `winnable = false`, empty solution, 8 nodes, 0 dead
ends, max depth 3 — so the caller cannot tell the two negative outcomes
apart from the result alone.  The last two conjuncts certify the ground
truth: no generated-move sequence from `c1x` ever reaches a won state,
while `c1y` is won by the 8-move `c1ySolution`, which the solver itself
returns when the budget is raised. -/
theorem claim_C1_negative_outcomes_conflated :
    Solver.solve 20000 100 c1x = some ⟨false, [], 8, 0, 0, 3⟩ ∧
    Solver.solve 8 100 c1y = some ⟨false, [], 8, 0, 0, 3⟩ ∧
    (∀ (ms : List Move) (sf : GameState), playSeq c1x ms = some sf →
      Solver._is_won sf = false) ∧
    (playSeq c1y c1ySolution).map Solver._is_won = some true ∧
    Solver.solve 20000 100 c1y = some ⟨true, c1ySolution, 72, 0, 0, 8⟩ := by
  refine ⟨by rfl, by rfl, ?_, by rfl, by rfl⟩
  intro ms sf h
  exact closure_unwinnable c1closure (by decide) (by decide) ms c1x
    (by decide) sf h
